import Mathlib

/-!
Shallow embedding of the Tetris core (src/types/tetris.ts, src/core/board.ts,
src/core/bag.ts, src/core/piece.ts, src/core/game.ts) and proofs about it.

Modelling conventions:
* JavaScript numbers used as integers (seeds, scores, indices) become `Nat`/`Int`
  with explicit `% 2147483648` where the source reduces; all arithmetic that the
  source performs is integer-exact at the modelled call sites.
* Millisecond timers (`deltaTime`, `dropTimer`, `lockTimer`, `dasTimer`) become
  exact rationals `ℚ`; the source manipulates them with `+`, `-`, `*`, `/`,
  `Math.floor` and `%` on nonnegative operands, which we mirror exactly.
* The grid is a `List` of rows (row 0 = top), each row a `List` of
  `Option TetrominoType` cells (`none` = empty), as in `createEmptyGrid`.
* `while` loops become fuel-driven recursions with a fuel argument chosen
  strictly larger than the loop's possible iteration count (justified in
  comments at each definition).
* Event payloads (`data`) are not modelled; only the event tag union of
  `GameEvent` from src/core/game.ts is.
-/

namespace Tetris

/-- Tetromino types, from the `TetrominoType` enum in src/types/tetris.ts. -/
inductive TetrominoType where
  | I | O | T | S | Z | J | L
deriving DecidableEq, Repr, Inhabited

/-- A board cell: `none` is empty, `some t` holds a locked piece of type `t`. -/
abbrev Cell := Option TetrominoType

/-- One board row, top-level index 0 being the leftmost column. -/
abbrev BoardRow := List Cell

/-- The board grid, index 0 being the top (hidden) row. -/
abbrev Grid := List BoardRow

/-- Board width constant from src/types/tetris.ts. -/
def BOARD_WIDTH : Nat := 10

/-- Visible board height constant from src/types/tetris.ts. -/
def BOARD_HEIGHT : Nat := 20

/-- Hidden spawn rows constant from src/types/tetris.ts. -/
def HIDDEN_ROWS : Nat := 2

/-- Total grid height, `BOARD_HEIGHT + HIDDEN_ROWS` from src/types/tetris.ts. -/
def TOTAL_HEIGHT : Nat := BOARD_HEIGHT + HIDDEN_ROWS

/-- Lock delay in milliseconds from src/types/tetris.ts. -/
def LOCK_DELAY : ℚ := 500

/-- DAS initial delay in milliseconds from src/types/tetris.ts. -/
def DAS_DELAY : ℚ := 170

/-- DAS repeat period in milliseconds from src/types/tetris.ts. -/
def DAS_PERIOD : ℚ := 50

/-- Scoring constant from src/types/tetris.ts. -/
def SCORE_SINGLE : Nat := 100

/-- Scoring constant from src/types/tetris.ts. -/
def SCORE_DOUBLE : Nat := 300

/-- Scoring constant from src/types/tetris.ts. -/
def SCORE_TRIPLE : Nat := 500

/-- Scoring constant from src/types/tetris.ts. -/
def SCORE_TETRIS : Nat := 800

/-- Scoring constant from src/types/tetris.ts. -/
def SCORE_SOFT_DROP : Nat := 1

/-- Scoring constant from src/types/tetris.ts. -/
def SCORE_HARD_DROP : Nat := 2

/-- Integer grid coordinates; `y` may be negative (hidden area above the top). -/
structure Pos where
  x : Int
  y : Int
deriving DecidableEq, Repr

/- ------------------------------------------------------------------
   7-bag randomizer, from src/core/bag.ts (class BagRandomizer).
   ------------------------------------------------------------------ -/

/-- The LCG seed update of `BagRandomizer.random`:
`seed = (seed * 1664525 + 1013904223) % 2147483648`. -/
def lcgNext (seed : Nat) : Nat :=
  (seed * 1664525 + 1013904223) % 2147483648

/-- The order in which `fillBag` pushes the seven types before shuffling. -/
def allTypes : List TetrominoType :=
  [.I, .O, .T, .S, .Z, .J, .L]

/-- The destructuring swap `[bag[i], bag[j]] = [bag[j], bag[i]]` used by the
Fisher-Yates pass.  All call sites have both indices in bounds, so the
`getD` default is never produced. -/
def swapList (l : List TetrominoType) (i j : Nat) : List TetrominoType :=
  (l.set i (l.getD j .I)).set j (l.getD i .I)

/-- The Fisher-Yates loop of `fillBag`: `for (i = bag.length - 1; i > 0; i--)`.
The first argument is the current loop variable `i` (the recursion stops at
`i = 0`, mirroring the loop condition `i > 0`).  One `random()` call updates
the seed, and `Math.floor(random() * (i + 1))` on the updated 31-bit seed `s`
is exactly `s * (i + 1) / 2147483648` in natural-number division. -/
def fisherYates : Nat → List TetrominoType × Nat → List TetrominoType × Nat
  | 0, bs => bs
  | i + 1, (bag, seed) =>
    let s := lcgNext seed
    let j := s * (i + 2) / 2147483648
    fisherYates i (swapList bag (i + 1) j, s)

/-- `BagRandomizer.fillBag`: every call site passes an empty array, so the
bag after the seven pushes is exactly `allTypes`; then the Fisher-Yates pass
runs from `i = bag.length - 1 = 6` down to `1`. -/
def fillBag (seed : Nat) : List TetrominoType × Nat :=
  fisherYates (allTypes.length - 1) (allTypes, seed)

/-- The mutable state of a `BagRandomizer` instance. -/
structure BagState where
  currentBag : List TetrominoType
  nextBag : List TetrominoType
  seed : Nat
deriving DecidableEq, Repr

/-- The `BagRandomizer` constructor with an explicit seed:
fill `currentBag`, then `nextBag` (also the body of `reset`). -/
def initBag (seed : Nat) : BagState :=
  let cb := fillBag seed
  let nb := fillBag cb.2
  ⟨cb.1, nb.1, nb.2⟩

/-- `BagRandomizer.next`: on an empty `currentBag`, promote `nextBag` and
refill it; then shift the front element off `currentBag`.  The `shift()!`
assertion cannot fail at runtime (the promoted bag has seven elements);
`headD .I` mirrors it totally. -/
def bagNext (b : BagState) : TetrominoType × BagState :=
  let b' :=
    if b.currentBag.isEmpty then
      let nb := fillBag b.seed
      BagState.mk b.nextBag nb.1 nb.2
    else b
  (b'.currentBag.headD .I, { b' with currentBag := b'.currentBag.tail })

/-- `n` successive `next()` calls, returning the drawn types in order. -/
def bagDrawN : Nat → BagState → List TetrominoType × BagState
  | 0, b => ([], b)
  | n + 1, b =>
    let tb := bagNext b
    let rest := bagDrawN n tb.2
    (tb.1 :: rest.1, rest.2)

/-- The `while (allPieces.length < count)` loop of `BagRandomizer.preview`:
each iteration fills a fresh temporary bag (advancing `this.seed`!) and
appends it.  Each iteration adds 7 ≥ 1 pieces, so `count` units of fuel
strictly exceed the possible iteration count. -/
def previewLoop : Nat → List TetrominoType → Nat → Nat → List TetrominoType × Nat
  | 0, acc, _, seed => (acc, seed)
  | fuel + 1, acc, count, seed =>
    if acc.length < count then
      let tb := fillBag seed
      previewLoop fuel (acc ++ tb.1) count tb.2
    else (acc, seed)

/-- `BagRandomizer.preview(count)`: copies `currentBag ++ nextBag`, extends it
with freshly generated bags while too short (mutating only `this.seed`),
and returns the first `count` pieces. -/
def bagPreview (count : Nat) (b : BagState) : List TetrominoType × BagState :=
  let r := previewLoop count (b.currentBag ++ b.nextBag) count b.seed
  (r.1.take count, { b with seed := r.2 })

/- ------------------------------------------------------------------
   Shape and wall-kick tables, from src/core/piece.ts.
   ------------------------------------------------------------------ -/

/-- `TETROMINO_SHAPES`: per type, the four rotation-state matrices
(1 = filled, 0 = empty), transliterated cell for cell. -/
def TETROMINO_SHAPES : TetrominoType → List (List (List Nat))
  | .I =>
    [[[0, 0, 0, 0], [1, 1, 1, 1], [0, 0, 0, 0], [0, 0, 0, 0]],
     [[0, 0, 1, 0], [0, 0, 1, 0], [0, 0, 1, 0], [0, 0, 1, 0]],
     [[0, 0, 0, 0], [0, 0, 0, 0], [1, 1, 1, 1], [0, 0, 0, 0]],
     [[0, 1, 0, 0], [0, 1, 0, 0], [0, 1, 0, 0], [0, 1, 0, 0]]]
  | .O =>
    [[[0, 1, 1, 0], [0, 1, 1, 0], [0, 0, 0, 0], [0, 0, 0, 0]],
     [[0, 1, 1, 0], [0, 1, 1, 0], [0, 0, 0, 0], [0, 0, 0, 0]],
     [[0, 1, 1, 0], [0, 1, 1, 0], [0, 0, 0, 0], [0, 0, 0, 0]],
     [[0, 1, 1, 0], [0, 1, 1, 0], [0, 0, 0, 0], [0, 0, 0, 0]]]
  | .T =>
    [[[0, 1, 0], [1, 1, 1], [0, 0, 0]],
     [[0, 1, 0], [0, 1, 1], [0, 1, 0]],
     [[0, 0, 0], [1, 1, 1], [0, 1, 0]],
     [[0, 1, 0], [1, 1, 0], [0, 1, 0]]]
  | .S =>
    [[[0, 1, 1], [1, 1, 0], [0, 0, 0]],
     [[0, 1, 0], [0, 1, 1], [0, 0, 1]],
     [[0, 0, 0], [0, 1, 1], [1, 1, 0]],
     [[1, 0, 0], [1, 1, 0], [0, 1, 0]]]
  | .Z =>
    [[[1, 1, 0], [0, 1, 1], [0, 0, 0]],
     [[0, 0, 1], [0, 1, 1], [0, 1, 0]],
     [[0, 0, 0], [1, 1, 0], [0, 1, 1]],
     [[0, 1, 0], [1, 1, 0], [1, 0, 0]]]
  | .J =>
    [[[1, 0, 0], [1, 1, 1], [0, 0, 0]],
     [[0, 1, 1], [0, 1, 0], [0, 1, 0]],
     [[0, 0, 0], [1, 1, 1], [0, 0, 1]],
     [[0, 1, 0], [0, 1, 0], [1, 1, 0]]]
  | .L =>
    [[[0, 0, 1], [1, 1, 1], [0, 0, 0]],
     [[0, 1, 0], [0, 1, 0], [0, 1, 1]],
     [[0, 0, 0], [1, 1, 1], [1, 0, 0]],
     [[1, 1, 0], [0, 1, 0], [0, 1, 0]]]

/-- `PieceData.getShape`: `TETROMINO_SHAPES[type][rotation]`; the rotation
state is always one of 0..3, so the `getD` default is never produced. -/
def getShape (t : TetrominoType) (r : Fin 4) : List (List Nat) :=
  (TETROMINO_SHAPES t).getD r.val []

/-- `WALL_KICK_DATA` (J, L, S, T, Z pieces), keyed by the rotation pair;
pairs absent from the source table yield `[]` (the `|| []` fallback). -/
def WALL_KICK_DATA (fromRot toRot : Fin 4) : List Pos :=
  match fromRot.val, toRot.val with
  | 0, 1 => [⟨-1, 0⟩, ⟨-1, 1⟩, ⟨0, -2⟩, ⟨-1, -2⟩]
  | 1, 0 => [⟨1, 0⟩, ⟨1, -1⟩, ⟨0, 2⟩, ⟨1, 2⟩]
  | 1, 2 => [⟨1, 0⟩, ⟨1, -1⟩, ⟨0, 2⟩, ⟨1, 2⟩]
  | 2, 1 => [⟨-1, 0⟩, ⟨-1, 1⟩, ⟨0, -2⟩, ⟨-1, -2⟩]
  | 2, 3 => [⟨1, 0⟩, ⟨1, 1⟩, ⟨0, -2⟩, ⟨1, -2⟩]
  | 3, 2 => [⟨-1, 0⟩, ⟨-1, -1⟩, ⟨0, 2⟩, ⟨-1, 2⟩]
  | 3, 0 => [⟨-1, 0⟩, ⟨-1, -1⟩, ⟨0, 2⟩, ⟨-1, 2⟩]
  | 0, 3 => [⟨1, 0⟩, ⟨1, 1⟩, ⟨0, -2⟩, ⟨1, -2⟩]
  | _, _ => []

/-- `I_WALL_KICK_DATA`: the distinct kick table of the I piece. -/
def I_WALL_KICK_DATA (fromRot toRot : Fin 4) : List Pos :=
  match fromRot.val, toRot.val with
  | 0, 1 => [⟨-2, 0⟩, ⟨1, 0⟩, ⟨-2, -1⟩, ⟨1, 2⟩]
  | 1, 0 => [⟨2, 0⟩, ⟨-1, 0⟩, ⟨2, 1⟩, ⟨-1, -2⟩]
  | 1, 2 => [⟨-1, 0⟩, ⟨2, 0⟩, ⟨-1, 2⟩, ⟨2, -1⟩]
  | 2, 1 => [⟨1, 0⟩, ⟨-2, 0⟩, ⟨1, -2⟩, ⟨-2, 1⟩]
  | 2, 3 => [⟨2, 0⟩, ⟨-1, 0⟩, ⟨2, 1⟩, ⟨-1, -2⟩]
  | 3, 2 => [⟨-2, 0⟩, ⟨1, 0⟩, ⟨-2, -1⟩, ⟨1, 2⟩]
  | 3, 0 => [⟨1, 0⟩, ⟨-2, 0⟩, ⟨1, -2⟩, ⟨-2, 1⟩]
  | 0, 3 => [⟨-1, 0⟩, ⟨2, 0⟩, ⟨-1, 2⟩, ⟨2, -1⟩]
  | _, _ => []

/-- `PieceData.getWallKickOffsets`: the I piece uses its own table, the O
piece gets `[]`, every other piece the common table. -/
def getWallKickOffsets (t : TetrominoType) (fromRot toRot : Fin 4) : List Pos :=
  if t = .I then I_WALL_KICK_DATA fromRot toRot
  else if t = .O then []
  else WALL_KICK_DATA fromRot toRot

/-- `PieceData.getNextRotationCW`: `(rotation + 1) % 4` (`Fin 4` addition). -/
def getNextRotationCW (r : Fin 4) : Fin 4 := r + 1

/-- `PieceData.getNextRotationCCW`: `(rotation + 3) % 4` (`Fin 4` addition). -/
def getNextRotationCCW (r : Fin 4) : Fin 4 := r + 3

/-- `PieceData.getSpawnPosition`: `x = Math.floor((10 - width) / 2)` with
`width` the first rotation matrix's row width; `y = 0` for I, else `1`. -/
def getSpawnPosition (t : TetrominoType) : Pos :=
  let width := ((TETROMINO_SHAPES t).getD 0 []).getD 0 [] |>.length
  ⟨((10 - width : Nat) : Int) / 2, if t = .I then 0 else 1⟩

/- ------------------------------------------------------------------
   Board, from src/core/board.ts (class Board).
   ------------------------------------------------------------------ -/

/-- Grid cell read `grid[y][x]` (used only under the source's bounds guards,
where both indices are in range, so the defaults are never produced). -/
def cellAtD (g : Grid) (y x : Nat) : Cell :=
  (g.getD y []).getD x none

/-- `createEmptyGrid`: `TOTAL_HEIGHT` rows of `BOARD_WIDTH` empty cells. -/
def createEmptyGrid : Grid :=
  List.replicate TOTAL_HEIGHT (List.replicate BOARD_WIDTH (none : Cell))

/-- The inner-loop body of `Board.isValidPosition` for one shape cell
`(row, col)`: `true` when the cell raises no objection.  Check order follows
the source: empty shape cell → ok; column out of `[0, width)` → reject;
in-grid occupied target → reject; row at/below the bottom → reject. -/
def cellOk (g : Grid) (p : Pos) (shape : List (List Nat)) (row col : Nat) : Bool :=
  if (shape.getD row []).getD col 0 = 0 then true
  else
    let boardX : Int := p.x + col
    let boardY : Int := p.y + row
    if boardX < 0 ∨ (BOARD_WIDTH : Int) ≤ boardX then false
    else if 0 ≤ boardY ∧ boardY < (TOTAL_HEIGHT : Int) ∧
        cellAtD g boardY.toNat boardX.toNat ≠ none then false
    else if (TOTAL_HEIGHT : Int) ≤ boardY then false
    else true

/-- `Board.isValidPosition`: every cell of the resolved shape passes
`cellOk` (the source's early `return false` is `List.all`). -/
def isValidPosition (g : Grid) (t : TetrominoType) (p : Pos) (r : Fin 4) : Bool :=
  let shape := getShape t r
  (List.range shape.length).all fun row =>
    (List.range (shape.getD row []).length).all fun col =>
      cellOk g p shape row col

/-- Write one cell: `this.grid[boardY][boardX] = type` (both indices are
guarded in bounds by the caller). -/
def setCell (g : Grid) (y x : Nat) (t : TetrominoType) : Grid :=
  g.set y ((g.getD y []).set x (some t))

/-- The filled cells of a shape matrix in the source's iteration order
(row-major), as `(row, col)` pairs. -/
def filledCells (shape : List (List Nat)) : List (Nat × Nat) :=
  (List.range shape.length).flatMap fun row =>
    (List.range (shape.getD row []).length).filterMap fun col =>
      if (shape.getD row []).getD col 0 = 0 then none else some (row, col)

/-- `Board.lockPiece`: writes the type into every filled shape cell that
falls within grid bounds; out-of-bounds cells are silently skipped. -/
def lockPiece (g : Grid) (t : TetrominoType) (p : Pos) (r : Fin 4) : Grid :=
  (filledCells (getShape t r)).foldl
    (fun acc rc =>
      let boardX : Int := p.x + rc.2
      let boardY : Int := p.y + rc.1
      if 0 ≤ boardY ∧ boardY < (TOTAL_HEIGHT : Int) ∧
          0 ≤ boardX ∧ boardX < (BOARD_WIDTH : Int) then
        setCell acc boardY.toNat boardX.toNat t
      else acc)
    g

/-- `Board.isLineFull(row)`: `false` for an out-of-range or missing row or a
row of the wrong width; otherwise every cell must hold a piece type (for the
typed model, `cell ≠ none` is exactly the source's
`Object.values(TetrominoType).includes(cell)` check on a non-null cell). -/
def isLineFull (g : Grid) (row : Nat) : Bool :=
  if TOTAL_HEIGHT ≤ row then false
  else
    let r := g.getD row []
    if r.length ≠ BOARD_WIDTH then false
    else r.all fun c => c ≠ none

/-- An empty row as inserted by `clearLines` (`Array(BOARD_WIDTH).fill(null)`). -/
def emptyRow : BoardRow := List.replicate BOARD_WIDTH (none : Cell)

/-- The `while (row >= 0)` loop of `Board.clearLines`, with the loop variable
carried as `n = row + 1` (so `n = 0` is the exit `row < 0`).  On a full row
`m = n - 1`: record `m` (array `push` = append), `splice(m, 1)` (=`eraseIdx m`)
then `unshift(empty)` (=`emptyRow :: ·`), and re-examine the same index;
otherwise decrement.  Each step either decrements `n` (at most `TOTAL_HEIGHT`
times) or removes one of at most `TOTAL_HEIGHT` full rows (the inserted empty
row is never full), so `2 * TOTAL_HEIGHT + 2` fuel strictly exceeds the
iteration count for any grid of height `TOTAL_HEIGHT`. -/
def clearLinesLoop : Nat → Grid → Nat → List Nat → Grid × List Nat
  | 0, g, _, acc => (g, acc)
  | fuel + 1, g, n, acc =>
    match n with
    | 0 => (g, acc)
    | m + 1 =>
      if isLineFull g m then
        clearLinesLoop fuel (emptyRow :: g.eraseIdx m) (m + 1) (acc ++ [m])
      else
        clearLinesLoop fuel g m acc

/-- `Board.clearLines`: run the scan from the bottom row and return the new
grid together with `clearedLines.reverse()`. -/
def clearLines (g : Grid) : Grid × List Nat :=
  let r := clearLinesLoop (2 * TOTAL_HEIGHT + 2) g TOTAL_HEIGHT []
  (r.1, r.2.reverse)

/-- `Board.isGameOver`: the source always returns `false` (game over is
decided at spawn instead). -/
def isGameOver (_ : Grid) : Bool := false

/-- The per-column scan of `Board.getBoardStats`: walk the rows of one
column from the top carrying `foundBlock`, the recorded height and the hole
count; on the first occupied cell record `TOTAL_HEIGHT - row`, and count
every empty cell seen after it. -/
def colLoop : List Cell → Nat → Bool → Nat → Nat → Nat × Nat
  | [], _, _, h, holes => (h, holes)
  | c :: rest, row, found, h, holes =>
    if c ≠ none then
      if found then colLoop rest (row + 1) true h holes
      else colLoop rest (row + 1) true (TOTAL_HEIGHT - row) holes
    else
      if found then colLoop rest (row + 1) found h (holes + 1)
      else colLoop rest (row + 1) found h holes

/-- The cells of column `col`, top to bottom, as scanned by `getBoardStats`. -/
def columnCells (g : Grid) (col : Nat) : List Cell :=
  (List.range TOTAL_HEIGHT).map fun row => cellAtD g row col

/-- Per-column `(height, holes)` of `getBoardStats`. -/
def columnStats (g : Grid) (col : Nat) : Nat × Nat :=
  colLoop (columnCells g col) 0 false 0 0

/-- The result record of `Board.getBoardStats`. -/
structure BoardStats where
  height : Nat
  holes : Nat
  bumpiness : Nat
deriving DecidableEq, Repr

/-- `Board.getBoardStats`: column heights and holes from the per-column scan;
bumpiness sums `Math.abs(columnHeights[i] - columnHeights[i+1])`; the
aggregate height is `Math.max(...columnHeights)` (all heights are ≥ 0, so the
fold from 0 is exact). -/
def getBoardStats (g : Grid) : BoardStats :=
  let columnHeights := (List.range BOARD_WIDTH).map fun col => (columnStats g col).1
  let holes := ((List.range BOARD_WIDTH).map fun col => (columnStats g col).2).sum
  let bumpiness :=
    ((List.range (BOARD_WIDTH - 1)).map fun i =>
      ((columnHeights.getD i 0 : Int) - (columnHeights.getD (i + 1) 0 : Int)).natAbs).sum
  ⟨columnHeights.foldl max 0, holes, bumpiness⟩

/- ------------------------------------------------------------------
   Game controller, from src/core/game.ts (class Game).
   ------------------------------------------------------------------ -/

/-- The `GameState` enum from src/types/tetris.ts. -/
inductive GameState where
  | IDLE | PLAYING | PAUSED | GAME_OVER | COMPLETED
deriving DecidableEq, Repr

/-- The `InputAction` enum from src/core/game.ts. -/
inductive InputAction where
  | MOVE_LEFT | MOVE_RIGHT | SOFT_DROP | HARD_DROP
  | ROTATE_CW | ROTATE_CCW | HOLD | PAUSE
deriving DecidableEq, Repr

/-- The tag union of `GameEvent` from src/core/game.ts (payloads omitted). -/
inductive GameEvent where
  | line_clear | piece_lock | game_over | level_up | tspin | combo
deriving DecidableEq, Repr

/-- The `GameStats` record from src/types/tetris.ts. -/
structure GameStats where
  score : Nat
  level : Nat
  lines : Nat
  combo : Nat
  backToBack : Bool
deriving DecidableEq, Repr

/-- The `Piece` record from src/types/tetris.ts (the per-piece `lockTimer`
field exists in the source interface but the controller uses its own timer). -/
structure Piece where
  type : TetrominoType
  pos : Pos
  rotation : Fin 4
  locked : Bool
  lockTimer : ℚ
deriving DecidableEq, Repr

/-- A DAS direction (`'left' | 'right'`). -/
inductive Dir where
  | left | right
deriving DecidableEq, Repr

/-- The mutable state of a `Game` instance. -/
structure Game where
  board : Grid
  bag : BagState
  state : GameState
  stats : GameStats
  currentPiece : Option Piece
  holdPiece : Option TetrominoType
  canHold : Bool
  dropTimer : ℚ
  lockTimer : ℚ
  dasTimer : ℚ
  dasDirection : Option Dir
  lastWasRotation : Bool
deriving DecidableEq, Repr

/-- `Game.movePiece(dx, dy)`: translate when the target is valid; a
successful horizontal move of a soft-locked piece resets the lock timer. -/
def movePiece (game : Game) (dx dy : Int) : Game × Bool :=
  match game.currentPiece with
  | none => (game, false)
  | some p =>
    let newPosition : Pos := ⟨p.pos.x + dx, p.pos.y + dy⟩
    if isValidPosition game.board p.type newPosition p.rotation then
      ({ game with
          currentPiece := some { p with pos := newPosition },
          lastWasRotation := false,
          lockTimer := if dx ≠ 0 ∧ p.locked then 0 else game.lockTimer }, true)
    else (game, false)

/-- The `for (const kick of kicks)` loop of `Game.rotatePiece`: apply the
first offset yielding a valid position and stop (early `return true`). -/
def tryKicks (game : Game) (p : Piece) (newRotation : Fin 4) :
    List Pos → Game × Bool
  | [] => (game, false)
  | kick :: rest =>
    let kickPosition : Pos := ⟨p.pos.x + kick.x, p.pos.y + kick.y⟩
    if isValidPosition game.board p.type kickPosition newRotation then
      ({ game with
          currentPiece := some { p with pos := kickPosition, rotation := newRotation },
          lastWasRotation := true,
          lockTimer := if p.locked then 0 else game.lockTimer }, true)
    else tryKicks game p newRotation rest

/-- `Game.rotatePiece(clockwise)`: try the in-place rotation first, then the
wall-kick offsets in table order; on failure nothing changes. -/
def rotatePiece (game : Game) (clockwise : Bool) : Game × Bool :=
  match game.currentPiece with
  | none => (game, false)
  | some p =>
    let newRotation :=
      if clockwise then getNextRotationCW p.rotation else getNextRotationCCW p.rotation
    if isValidPosition game.board p.type p.pos newRotation then
      ({ game with
          currentPiece := some { p with rotation := newRotation },
          lastWasRotation := true,
          lockTimer := if p.locked then 0 else game.lockTimer }, true)
    else
      tryKicks game p newRotation (getWallKickOffsets p.type p.rotation newRotation)

/-- `PieceData.isTSpin`: at least 3 of the 4 corners of the 3×3 bounding box
occupied or out of board bounds, and the last placement change a rotation
(the rotation argument of the source is unused there as well). -/
def isTSpin (board : Grid) (p : Pos) (lastWasRotation : Bool) : Bool :=
  if ¬ lastWasRotation then false
  else
    let corners : List Pos :=
      [⟨p.x, p.y⟩, ⟨p.x + 2, p.y⟩, ⟨p.x, p.y + 2⟩, ⟨p.x + 2, p.y + 2⟩]
    let occupiedCorners := corners.countP fun c =>
      c.x < 0 ∨ (10 : Int) ≤ c.x ∨ c.y < 0 ∨ (22 : Int) ≤ c.y ∨
        cellAtD board c.y.toNat c.x.toNat ≠ none
    3 ≤ occupiedCorners

/-- `Game.handleLineClears(numLines)`: bump the line and combo counters
(emitting a combo event when combo > 1), pick the base score by cleared-line
count (the 4-line base times 1.5 on back-to-back — `800 * 1.5 = 1200` is
integer-exact, written `SCORE_TETRIS * 3 / 2`), scale by `(level + 1)`, add
the combo bonus, then recompute the level as `min(⌊lines / 10⌋, 29)`,
emitting a level-up event only when it increased. -/
def handleLineClears (stats : GameStats) (numLines : Nat) : GameStats × List GameEvent :=
  let lines' := stats.lines + numLines
  let combo' := stats.combo + 1
  let comboEvents : List GameEvent := if 1 < combo' then [.combo] else []
  let base : Nat × Bool :=
    match numLines with
    | 1 => (SCORE_SINGLE, false)
    | 2 => (SCORE_DOUBLE, false)
    | 3 => (SCORE_TRIPLE, false)
    | 4 => (if stats.backToBack then SCORE_TETRIS * 3 / 2 else SCORE_TETRIS, true)
    | _ => (0, stats.backToBack)
  let score' := stats.score + base.1 * (stats.level + 1) + 50 * combo' * (stats.level + 1)
  let newLevel := min (lines' / 10) 29
  if stats.level < newLevel then
    (⟨score', newLevel, lines', combo', base.2⟩, comboEvents ++ [.level_up])
  else
    (⟨score', stats.level, lines', combo', base.2⟩, comboEvents)

/-- `Game.spawnNextPiece`: draw from the bag, place at the spawn position in
spawn rotation, reset the timers; an invalid spawn position means game over
(with a game-over event). -/
def spawnNextPiece (game : Game) : Game × List GameEvent :=
  let tb := bagNext game.bag
  let position := getSpawnPosition tb.1
  let g' := { game with
    bag := tb.2,
    currentPiece := some ⟨tb.1, position, 0, false, 0⟩,
    dropTimer := 0,
    lockTimer := 0,
    lastWasRotation := false }
  if ¬ isValidPosition g'.board tb.1 position 0 then
    ({ g' with state := GameState.GAME_OVER }, [.game_over])
  else (g', [])

/-- The board after `lockCurrentPiece` has written the active piece and
cleared lines, together with the cleared-line indices. -/
def lockClear (game : Game) (p : Piece) : Grid × List Nat :=
  clearLines (lockPiece game.board p.type p.pos p.rotation)

/-- The t-spin event of `lockCurrentPiece` (emitted only for a T piece whose
corner test passes on the freshly written board). -/
def lockTspinEvents (game : Game) (p : Piece) : List GameEvent :=
  if p.type = .T ∧
      isTSpin (lockPiece game.board p.type p.pos p.rotation) p.pos game.lastWasRotation then
    [.tspin]
  else []

/-- The stats update and its events in `lockCurrentPiece`: on a clear, run
`handleLineClears` and follow its events with the line-clear event;
otherwise just reset the combo. -/
def lockStatsEvents (game : Game) (p : Piece) : GameStats × List GameEvent :=
  if 0 < (lockClear game p).2.length then
    let hl := handleLineClears game.stats (lockClear game p).2.length
    (hl.1, hl.2 ++ [.line_clear])
  else ({ game.stats with combo := 0 }, [])

/-- All events of `lockCurrentPiece` up to (and excluding) any spawn,
in emission order: t-spin?, piece-lock, combo?, level-up?, line-clear?. -/
def lockEvents (game : Game) (p : Piece) : List GameEvent :=
  lockTspinEvents game p ++ [.piece_lock] ++ (lockStatsEvents game p).2

/-- The game record after the board write, clear and stats update of
`lockCurrentPiece`, before its terminal checks. -/
def lockedGame (game : Game) (p : Piece) : Game :=
  { game with board := (lockClear game p).1, stats := (lockStatsEvents game p).1 }

/-- `Game.lockCurrentPiece`: write the piece into the board, evaluate the
T-spin bonus, emit the lock event, clear lines (updating stats or resetting
the combo), then the dead `isGameOver` branch (the source method always
returns `false`), the 999-line completion check — which transitions to
`COMPLETED` and returns without emitting anything — and otherwise spawn the
next piece and re-enable hold. -/
def lockCurrentPiece (game : Game) : Game × List GameEvent :=
  match game.currentPiece with
  | none => (game, [])
  | some p =>
    if isGameOver (lockClear game p).1 then
      ({ lockedGame game p with state := GameState.GAME_OVER },
        lockEvents game p ++ [.game_over])
    else if 999 ≤ (lockStatsEvents game p).1.lines then
      ({ lockedGame game p with state := GameState.COMPLETED }, lockEvents game p)
    else
      let sp := spawnNextPiece (lockedGame game p)
      ({ sp.1 with canHold := true }, lockEvents game p ++ sp.2)

/-- The `while (this.movePiece(0, 1)) dropDistance++` loop of
`Game.performHardDrop`.  A successful descent needs a valid position, whose
filled cells lie above row `TOTAL_HEIGHT`, so from `y` at most
`TOTAL_HEIGHT - y` descents can succeed; the caller passes strictly more
fuel than that bound. -/
def hardDropLoop : Nat → Game → Game × Nat
  | 0, g => (g, 0)
  | fuel + 1, g =>
    let mv := movePiece g 0 1
    if mv.2 then
      let rest := hardDropLoop fuel mv.1
      (rest.1, rest.2 + 1)
    else (g, 0)

/-- `Game.performHardDrop`: descend until blocked, score the distance, then
lock immediately. -/
def performHardDrop (game : Game) : Game × List GameEvent :=
  match game.currentPiece with
  | none => (game, [])
  | some p =>
    let hd := hardDropLoop (((TOTAL_HEIGHT : Int) + 1 - p.pos.y).toNat + 1) game
    let g' := { hd.1 with stats :=
      { hd.1.stats with score := hd.1.stats.score + hd.2 * SCORE_HARD_DROP } }
    lockCurrentPiece g'

/-- `Game.performHold`: swap with the held piece (respawning it at its spawn
position) or, with nothing held yet, draw a fresh piece; then remember the
old piece, forbid a second hold and reset the timers. -/
def performHold (game : Game) : Game × List GameEvent :=
  match game.currentPiece with
  | none => (game, [])
  | some p =>
    if ¬ game.canHold then (game, [])
    else
      let heldType := p.type
      let swapped : Game × List GameEvent :=
        match game.holdPiece with
        | some h =>
          ({ game with currentPiece := some ⟨h, getSpawnPosition h, 0, false, 0⟩ }, [])
        | none => spawnNextPiece game
      ({ swapped.1 with
          holdPiece := some heldType,
          canHold := false,
          dropTimer := 0,
          lockTimer := 0 }, swapped.2)

/-- `Game.handleInput(action, pressed)`: outside `PLAYING` only un-pausing is
honored; pausing is honored next; every other action needs an active piece. -/
def handleInput (game : Game) (action : InputAction) (pressed : Bool) :
    Game × List GameEvent :=
  if game.state ≠ GameState.PLAYING then
    if action = .PAUSE ∧ pressed ∧ game.state = GameState.PAUSED then
      ({ game with state := GameState.PLAYING }, [])
    else (game, [])
  else if action = .PAUSE ∧ pressed then
    ({ game with state := GameState.PAUSED }, [])
  else
    match game.currentPiece with
    | none => (game, [])
    | some _ =>
      match action, pressed with
      | .MOVE_LEFT, true =>
        ({ (movePiece game (-1) 0).1 with dasDirection := some .left, dasTimer := 0 }, [])
      | .MOVE_LEFT, false =>
        if game.dasDirection = some .left then
          ({ game with dasDirection := none, dasTimer := 0 }, [])
        else (game, [])
      | .MOVE_RIGHT, true =>
        ({ (movePiece game 1 0).1 with dasDirection := some .right, dasTimer := 0 }, [])
      | .MOVE_RIGHT, false =>
        if game.dasDirection = some .right then
          ({ game with dasDirection := none, dasTimer := 0 }, [])
        else (game, [])
      | .SOFT_DROP, true =>
        let mv := movePiece game 0 1
        (if mv.2 then
          { mv.1 with stats :=
            { mv.1.stats with score := mv.1.stats.score + SCORE_SOFT_DROP } }
         else mv.1, [])
      | .HARD_DROP, true => performHardDrop game
      | .ROTATE_CW, true => ((rotatePiece game true).1, [])
      | .ROTATE_CCW, true => ((rotatePiece game false).1, [])
      | .HOLD, true => if game.canHold then performHold game else (game, [])
      | _, _ => (game, [])

/-- `Game.getDropInterval`: `max(1, 48 - level * 2)` frames (truncated
subtraction agrees with the clamped JS value), converted to milliseconds. -/
def getDropInterval (level : Nat) : ℚ :=
  let framesPerDrop : Nat := max 1 (48 - level * 2)
  ((framesPerDrop : ℚ) / 60) * 1000

/-- The DAS catch-up shifts of `Game.update`: `dasSteps` iterations of a
one-cell shift in the armed direction. -/
def applyDasSteps : Nat → Dir → Game → Game
  | 0, _, g => g
  | k + 1, d, g =>
    applyDasSteps k d (movePiece g (if d = .left then -1 else 1) 0).1

/-- The gravity `while (this.dropTimer >= dropInterval)` loop body of
`Game.update`, run `n` times: each iteration attempts one descent and marks
the piece soft-locked when blocked.  The caller passes
`n = ⌊dropTimer / dropInterval⌋`, exactly the number of iterations the
source loop performs (each iteration consumes one interval). -/
def gravitySteps : Nat → Game → Game
  | 0, g => g
  | k + 1, g =>
    let mv := movePiece g 0 1
    let g' :=
      if mv.2 then mv.1
      else
        { mv.1 with currentPiece := mv.1.currentPiece.map fun p => { p with locked := true } }
    gravitySteps k g'

/-- The DAS block of `Game.update`: with a direction armed, accumulate the
timer; past the initial delay, apply `⌊(t - DAS_DELAY) / DAS_PERIOD⌋`
catch-up shifts and carry the remainder (`%` on these nonnegative values is
`x - ⌊x / p⌋ * p`). -/
def updateDas (game : Game) (deltaTime : ℚ) : Game :=
  match game.dasDirection with
  | none => game
  | some d =>
    let t := game.dasTimer + deltaTime
    if DAS_DELAY ≤ t then
      let dasSteps := (⌊(t - DAS_DELAY) / DAS_PERIOD⌋).toNat
      let g' := applyDasSteps dasSteps d { game with dasTimer := t }
      { g' with dasTimer := DAS_DELAY + ((t - DAS_DELAY) - dasSteps * DAS_PERIOD) }
    else { game with dasTimer := t }

/-- The gravity block of `Game.update`: accumulate the drop timer and run
the `while (dropTimer >= dropInterval)` loop, which performs exactly
`⌊dropTimer / dropInterval⌋` descent attempts, each consuming one interval
(the interval is positive and unchanged during the loop). -/
def updateGravity (game : Game) (deltaTime : ℚ) : Game :=
  let dropT := game.dropTimer + deltaTime
  let dropInterval := getDropInterval game.stats.level
  let n := (⌊dropT / dropInterval⌋).toNat
  gravitySteps n { game with dropTimer := dropT - n * dropInterval }

/-- `Game.update(deltaTime)`: no-op unless playing with an active piece;
then the DAS catch-up block, the gravity block, and lock-delay accumulation
with locking once `LOCK_DELAY` is reached. -/
def update (game : Game) (deltaTime : ℚ) : Game × List GameEvent :=
  if game.state ≠ GameState.PLAYING ∨ game.currentPiece = none then (game, [])
  else
    let g2 := updateGravity (updateDas game deltaTime) deltaTime
    match g2.currentPiece with
    | none => (g2, [])
    | some p =>
      if p.locked then
        let lt := g2.lockTimer + deltaTime
        if LOCK_DELAY ≤ lt then lockCurrentPiece { g2 with lockTimer := lt }
        else ({ g2 with lockTimer := lt }, [])
      else ({ g2 with lockTimer := 0 }, [])

/-- The stats record set by `Game.reset`. -/
def initialStats : GameStats := ⟨0, 0, 0, 0, false⟩

/-- `Game.reset`, with the (time-derived or given) randomizer seed made an
explicit parameter. -/
def resetGame (seed : Nat) : Game :=
  ⟨createEmptyGrid, initBag seed, GameState.IDLE, initialStats,
    none, none, true, 0, 0, 0, none, false⟩

/-- `Game.start`: reset, enter `PLAYING`, spawn the first piece. -/
def startGame (seed : Nat) : Game × List GameEvent :=
  spawnNextPiece { resetGame seed with state := GameState.PLAYING }

/-- One externally triggered controller operation (a frame update or one
input edge) — the only entry points that run between resets. -/
inductive GameOp where
  | upd (deltaTime : ℚ)
  | inp (action : InputAction) (pressed : Bool)

/-- Apply one controller operation. -/
def stepGame (game : Game) : GameOp → Game
  | .upd dt => (update game dt).1
  | .inp a pressed => (handleInput game a pressed).1

/-- Apply a sequence of controller operations. -/
def runGame (game : Game) (ops : List GameOp) : Game :=
  ops.foldl stepGame game

/- ------------------------------------------------------------------
   C1 — clearLines returned indices.
   ------------------------------------------------------------------ -/

/-- A full row of a single piece type. -/
def fullRowOf (t : TetrominoType) : BoardRow :=
  List.replicate BOARD_WIDTH (some t)

/-- The grid of the repository's own `should clear non-consecutive lines`
test: full rows at original indices 19 and 21, everything else empty. -/
def clearLinesBugGrid : Grid :=
  (createEmptyGrid.set 19 (fullRowOf .T)).set 21 (fullRowOf .L)

/-- C1: the claim fails on the code.  On a grid whose full rows have
original indices 19 and 21, `clearLines` does remove exactly those rows
(the resulting grid is empty), but it returns `[20, 21]` — the indices at
which the rows were detected after the lower clear shifted everything down —
so the original index 19 of a cleared row is missing from the result, which
the repository's own test (`expect(clearedLines).toContain(19)`) requires. -/
theorem clearLines_shifted_indices_bug :
    isLineFull clearLinesBugGrid 19 = true ∧
    isLineFull clearLinesBugGrid 21 = true ∧
    isLineFull clearLinesBugGrid 20 = false ∧
    (clearLines clearLinesBugGrid).1 = createEmptyGrid ∧
    (clearLines clearLinesBugGrid).2 = [20, 21] ∧
    19 ∉ (clearLines clearLinesBugGrid).2 := by
  decide

/- ------------------------------------------------------------------
   C2 — preview must not change the draw sequence.
   ------------------------------------------------------------------ -/

/-- C2: the claim fails on the code.  From a fresh randomizer with seed 1,
`preview(15)` exceeds the 14 buffered pieces, so the preview loop calls
`fillBag` on `this`, advancing the shared LCG seed.  The first 14 draws
(already buffered) are unchanged and the previewed pieces themselves are the
correct upcoming 15 draws, but the refill after the buffers are exhausted
now shuffles from a different seed: the first 21 draws after `preview(15)`
differ from the first 21 draws without it. -/
theorem preview_advances_seed_and_changes_draws :
    (bagDrawN 14 (bagPreview 15 (initBag 1)).2).1 = (bagDrawN 14 (initBag 1)).1 ∧
    (bagPreview 15 (initBag 1)).1 = (bagDrawN 15 (initBag 1)).1 ∧
    (bagPreview 15 (initBag 1)).2.seed ≠ (initBag 1).seed ∧
    (bagDrawN 21 (bagPreview 15 (initBag 1)).2).1 ≠ (bagDrawN 21 (initBag 1)).1 := by
  decide

/- ------------------------------------------------------------------
   C3 — completion at 999 lines.
   ------------------------------------------------------------------ -/

/-- Events that `handleLineClears` can emit are only combo and level-up. -/
theorem handleLineClears_events (stats : GameStats) (numLines : Nat) :
    ∀ e ∈ (handleLineClears stats numLines).2,
      e = GameEvent.combo ∨ e = GameEvent.level_up := by
  intro e he
  unfold handleLineClears at he
  split at he <;> dsimp only at he <;>
    (try split at he) <;> (try split at he) <;>
    simp only [List.mem_append] at he <;>
    (try rcases he with he | he) <;>
    (try split at he) <;> (try simp_all) <;> tauto

/-- The bottom row filled in columns 0–7 only. -/
def almostFullRow : BoardRow :=
  List.replicate 8 (some TetrominoType.I) ++ [none, none]

/-- A playing state one line short of the 999 target: the bottom row needs
only columns 8 and 9, and the active O piece at `(7, 20)` covers exactly
those cells (plus two cells of row 20). -/
def completionGame : Game :=
  ⟨createEmptyGrid.set 21 almostFullRow, initBag 1, .PLAYING,
    ⟨0, 29, 998, 0, false⟩, some ⟨.O, ⟨7, 20⟩, 0, false, 0⟩,
    none, true, 0, 0, 0, none, false⟩

/-- The same lock processed far from the line target (total lines 0). -/
def ordinaryClearGame : Game :=
  { completionGame with stats := ⟨0, 29, 0, 0, false⟩ }

/-- A lock whose next spawn collides: the freshly drawn piece (a T for bag
seed 1) spawns at `(3, 1)` onto an occupied cell `(row 1, column 4)`. -/
def spawnCollisionGame : Game :=
  ⟨createEmptyGrid.set 1 ((List.replicate BOARD_WIDTH (none : Cell)).set 4
      (some TetrominoType.J)),
    initBag 1, .PLAYING, ⟨0, 0, 0, 0, false⟩, some ⟨.O, ⟨4, 18⟩, 0, false, 0⟩,
    none, true, 0, 0, 0, none, false⟩

/-- C3 counterexample: a lock that brings the total to 999 lines does
transition to `Completed`, but emits exactly `[piece_lock, line_clear]` —
the very same event list as an ordinary, non-completing single-line clear —
so no completion event reaches subscribers (the event union has no such
variant), whereas a spawn collision does emit a dedicated game-over event. -/
theorem completion_emits_no_completion_event :
    (lockCurrentPiece completionGame).1.state = GameState.COMPLETED ∧
    (lockCurrentPiece completionGame).1.stats.lines = 999 ∧
    (lockCurrentPiece completionGame).2 = [.piece_lock, .line_clear] ∧
    (lockCurrentPiece ordinaryClearGame).1.state = GameState.PLAYING ∧
    (lockCurrentPiece ordinaryClearGame).2 = [.piece_lock, .line_clear] ∧
    (lockCurrentPiece spawnCollisionGame).2 = [.piece_lock, .game_over] := by
  decide

/-- `spawnNextPiece` never touches the stats record. -/
theorem spawnNextPiece_stats (game : Game) :
    (spawnNextPiece game).1.stats = game.stats := by
  unfold spawnNextPiece
  dsimp only
  split <;> rfl

/-- C3 (amended): whenever lock processing brings the total line count to at
least 999, the controller transitions to the Completed state; the outcome is
signaled via state only — the lock emits just the ordinary t-spin /
piece-lock / combo / level-up / line-clear events, no game-over event and no
completion-specific event (the `GameEvent` union has no completion variant),
and nothing is emitted after the transition. -/
theorem lockCurrentPiece_stats (game : Game) (p : Piece)
    (hp : game.currentPiece = some p) :
    (lockCurrentPiece game).1.stats = (lockStatsEvents game p).1 := by
  unfold lockCurrentPiece
  rw [hp]
  simp only [isGameOver, Bool.false_eq_true, if_false]
  split
  · rfl
  · dsimp only
    rw [spawnNextPiece_stats]
    rfl

/-- The pre-terminal lock events are only the five ordinary tags. -/
theorem lockEvents_mem (game : Game) (p : Piece) :
    ∀ e ∈ lockEvents game p,
      e = GameEvent.tspin ∨ e = GameEvent.piece_lock ∨ e = GameEvent.combo ∨
        e = GameEvent.level_up ∨ e = GameEvent.line_clear := by
  intro e he
  unfold lockEvents at he
  simp only [List.mem_append] at he
  rcases he with (he | he) | he
  · unfold lockTspinEvents at he
    split at he
    · simp only [List.mem_singleton] at he
      exact Or.inl he
    · cases he
  · simp only [List.mem_singleton] at he
    exact Or.inr (Or.inl he)
  · unfold lockStatsEvents at he
    split at he
    · dsimp only at he
      simp only [List.mem_append, List.mem_singleton] at he
      rcases he with he | he
      · rcases handleLineClears_events game.stats (lockClear game p).2.length e he with
          h | h
        · exact Or.inr (Or.inr (Or.inl h))
        · exact Or.inr (Or.inr (Or.inr (Or.inl h)))
      · exact Or.inr (Or.inr (Or.inr (Or.inr he)))
    · cases he

/-- C3 (amended): whenever lock processing brings the total line count to at
least 999, the controller transitions to the Completed state; the outcome is
signaled via state only — the lock emits just the ordinary t-spin /
piece-lock / combo / level-up / line-clear events, no game-over event and no
completion-specific event (the `GameEvent` union has no completion variant),
and nothing is emitted after the transition. -/
theorem completed_at_999_state_only (game : Game) (p : Piece)
    (hp : game.currentPiece = some p)
    (hl : 999 ≤ (lockCurrentPiece game).1.stats.lines) :
    (lockCurrentPiece game).1.state = GameState.COMPLETED ∧
    ∀ e ∈ (lockCurrentPiece game).2,
      e = GameEvent.tspin ∨ e = GameEvent.piece_lock ∨ e = GameEvent.combo ∨
        e = GameEvent.level_up ∨ e = GameEvent.line_clear := by
  rw [lockCurrentPiece_stats game p hp] at hl
  unfold lockCurrentPiece
  rw [hp]
  simp only [isGameOver, Bool.false_eq_true, if_false, if_pos hl]
  exact ⟨trivial, lockEvents_mem game p⟩

/-- C3 witness data: the completing lock of `completionGame` satisfies the
hypotheses of the amended theorem. -/
theorem completed_at_999_state_only_witness :
    completionGame.currentPiece = some ⟨.O, ⟨7, 20⟩, 0, false, 0⟩ ∧
    999 ≤ (lockCurrentPiece completionGame).1.stats.lines ∧
    ((lockCurrentPiece completionGame).1.state = GameState.COMPLETED ∧
      ∀ e ∈ (lockCurrentPiece completionGame).2,
        e = GameEvent.tspin ∨ e = GameEvent.piece_lock ∨ e = GameEvent.combo ∨
          e = GameEvent.level_up ∨ e = GameEvent.line_clear) :=
  ⟨rfl, by decide,
    completed_at_999_state_only completionGame ⟨.O, ⟨7, 20⟩, 0, false, 0⟩ rfl (by decide)⟩

/- ------------------------------------------------------------------
   C4 — back-to-back tetris scoring.
   ------------------------------------------------------------------ -/

/-- The line counter always advances by the cleared-line count. -/
theorem handleLineClears_lines (stats : GameStats) (numLines : Nat) :
    (handleLineClears stats numLines).1.lines = stats.lines + numLines := by
  unfold handleLineClears
  dsimp only
  split <;> rfl

/-- The combo counter always increments. -/
theorem handleLineClears_combo (stats : GameStats) (numLines : Nat) :
    (handleLineClears stats numLines).1.combo = stats.combo + 1 := by
  unfold handleLineClears
  dsimp only
  split <;> rfl

/-- The level after a clear, as a closed formula. -/
theorem handleLineClears_level (stats : GameStats) (numLines : Nat) :
    (handleLineClears stats numLines).1.level =
      if stats.level < min ((stats.lines + numLines) / 10) 29 then
        min ((stats.lines + numLines) / 10) 29
      else stats.level := by
  unfold handleLineClears
  dsimp only
  rcases Nat.lt_or_ge stats.level (min ((stats.lines + numLines) / 10) 29) with h | h
  · simp only [if_pos h]
  · simp only [if_neg (not_lt.mpr h)]

/-- C4: from `backToBack = false` and `combo = 0`, at a level `L` that the
first clear does not change, a 4-line clear sets `backToBack`, makes the
combo 1 and adds `800·(L+1) + 50·1·(L+1)`; an immediately following 4-line
clear makes the combo 2 and adds `800·1.5·(L+1) + 50·2·(L+1)` (with
`800 · 1.5 = 1200`); clears of 1, 2 or 3 lines always reset `backToBack`. -/
theorem backToBack_tetris_scoring (s : GameStats)
    (hb : s.backToBack = false) (hc : s.combo = 0)
    (hL : min ((s.lines + 4) / 10) 29 ≤ s.level) :
    (handleLineClears s 4).1.backToBack = true ∧
    (handleLineClears s 4).1.combo = 1 ∧
    (handleLineClears s 4).1.score =
      s.score + 800 * (s.level + 1) + 50 * 1 * (s.level + 1) ∧
    (handleLineClears (handleLineClears s 4).1 4).1.combo = 2 ∧
    (handleLineClears (handleLineClears s 4).1 4).1.score =
      (handleLineClears s 4).1.score + 1200 * (s.level + 1) + 50 * 2 * (s.level + 1) ∧
    ∀ s' : GameStats,
      (handleLineClears s' 1).1.backToBack = false ∧
      (handleLineClears s' 2).1.backToBack = false ∧
      (handleLineClears s' 3).1.backToBack = false := by
  have hnot : ¬ s.level < min ((s.lines + 4) / 10) 29 := not_lt.mpr hL
  have h4 : handleLineClears s 4 =
      (⟨s.score + 800 * (s.level + 1) + 50 * (s.combo + 1) * (s.level + 1),
        s.level, s.lines + 4, s.combo + 1,
        true⟩,
       if 1 < s.combo + 1 then [GameEvent.combo] else []) := by
    unfold handleLineClears
    dsimp only
    rw [hb, if_neg hnot]
    rfl
  refine ⟨?_, ?_, ?_, ?_, ?_, ?_⟩
  · rw [h4]
  · rw [h4, hc]
  · rw [h4, hc]
  · rw [h4, handleLineClears_combo, hc]
  · rw [h4]
    unfold handleLineClears
    dsimp only
    split <;> (dsimp only; rw [hc]; norm_num [SCORE_TETRIS])
  · intro s'
    refine ⟨?_, ?_, ?_⟩ <;>
      (unfold handleLineClears; dsimp only; split <;> rfl)

/-- C4 witness: the theorem applied to the freshly reset stats record. -/
theorem backToBack_tetris_scoring_witness :
    initialStats.backToBack = false ∧ initialStats.combo = 0 ∧
    min ((initialStats.lines + 4) / 10) 29 ≤ initialStats.level ∧
    ((handleLineClears initialStats 4).1.backToBack = true ∧
     (handleLineClears initialStats 4).1.combo = 1 ∧
     (handleLineClears initialStats 4).1.score =
       initialStats.score + 800 * (initialStats.level + 1) +
         50 * 1 * (initialStats.level + 1) ∧
     (handleLineClears (handleLineClears initialStats 4).1 4).1.combo = 2 ∧
     (handleLineClears (handleLineClears initialStats 4).1 4).1.score =
       (handleLineClears initialStats 4).1.score + 1200 * (initialStats.level + 1) +
         50 * 2 * (initialStats.level + 1) ∧
     ∀ s' : GameStats,
       (handleLineClears s' 1).1.backToBack = false ∧
       (handleLineClears s' 2).1.backToBack = false ∧
       (handleLineClears s' 3).1.backToBack = false) :=
  ⟨rfl, rfl, by decide, backToBack_tetris_scoring initialStats rfl rfl (by decide)⟩

/- ------------------------------------------------------------------
   C6 — level/lines invariants across all controller operations.
   ------------------------------------------------------------------ -/

/-- How the stats may change over one controller step: lines and level never
decrease, and the level law `level = min(⌊lines / 10⌋, 29)` is preserved. -/
def statsEvolves (s s' : GameStats) : Prop :=
  s.lines ≤ s'.lines ∧ s.level ≤ s'.level ∧
    (s.level = min (s.lines / 10) 29 → s'.level = min (s'.lines / 10) 29)

theorem statsEvolves_refl (s : GameStats) : statsEvolves s s :=
  ⟨le_refl _, le_refl _, fun h => h⟩

theorem statsEvolves_of_eq {s s' : GameStats}
    (h : s'.lines = s.lines ∧ s'.level = s.level) : statsEvolves s s' :=
  ⟨h.1.ge, h.2.ge, fun hv => by rw [h.1, h.2, hv]⟩

theorem statsEvolves_trans {s₁ s₂ s₃ : GameStats}
    (h₁ : statsEvolves s₁ s₂) (h₂ : statsEvolves s₂ s₃) : statsEvolves s₁ s₃ :=
  ⟨h₁.1.trans h₂.1, h₁.2.1.trans h₂.2.1, fun hv => h₂.2.2 (h₁.2.2 hv)⟩

/-- A line clear only advances lines and level, and keeps the level law. -/
theorem handleLineClears_evolves (s : GameStats) (n : Nat) :
    statsEvolves s (handleLineClears s n).1 := by
  have hd : s.lines / 10 ≤ (s.lines + n) / 10 :=
    Nat.div_le_div_right (Nat.le_add_right _ _)
  refine ⟨?_, ?_, ?_⟩
  · rw [handleLineClears_lines]
    exact Nat.le_add_right _ _
  · rw [handleLineClears_level]
    split
    · exact le_of_lt ‹_›
    · exact le_refl _
  · intro hv
    rw [handleLineClears_level, handleLineClears_lines]
    split
    · rfl
    · omega

theorem movePiece_stats (game : Game) (dx dy : Int) :
    (movePiece game dx dy).1.stats = game.stats := by
  unfold movePiece
  split
  · rfl
  · dsimp only
    repeat' split
    all_goals rfl

theorem tryKicks_stats (game : Game) (p : Piece) (r : Fin 4) (ks : List Pos) :
    (tryKicks game p r ks).1.stats = game.stats := by
  induction ks with
  | nil => rfl
  | cons k ks ih =>
    unfold tryKicks
    dsimp only
    split
    · rfl
    · exact ih

theorem rotatePiece_stats (game : Game) (cw : Bool) :
    (rotatePiece game cw).1.stats = game.stats := by
  unfold rotatePiece
  split
  · rfl
  · dsimp only
    repeat' split
    all_goals first | rfl | exact tryKicks_stats _ _ _ _

theorem applyDasSteps_stats (n : Nat) (d : Dir) (game : Game) :
    (applyDasSteps n d game).stats = game.stats := by
  induction n generalizing game with
  | zero => rfl
  | succ n ih =>
    unfold applyDasSteps
    rw [ih, movePiece_stats]

theorem gravitySteps_stats (n : Nat) (game : Game) :
    (gravitySteps n game).stats = game.stats := by
  induction n generalizing game with
  | zero => rfl
  | succ n ih =>
    unfold gravitySteps
    dsimp only
    rw [ih]
    split
    · rw [movePiece_stats]
    · show (movePiece game 0 1).1.stats = game.stats
      rw [movePiece_stats]

theorem updateDas_stats (game : Game) (dt : ℚ) :
    (updateDas game dt).stats = game.stats := by
  unfold updateDas
  split
  · rfl
  · dsimp only
    split
    · show (applyDasSteps _ _ _).stats = game.stats
      rw [applyDasSteps_stats]
    · rfl

theorem updateGravity_stats (game : Game) (dt : ℚ) :
    (updateGravity game dt).stats = game.stats := by
  unfold updateGravity
  dsimp only
  rw [gravitySteps_stats]

theorem hardDropLoop_stats (fuel : Nat) (game : Game) :
    (hardDropLoop fuel game).1.stats = game.stats := by
  induction fuel generalizing game with
  | zero => rfl
  | succ fuel ih =>
    unfold hardDropLoop
    dsimp only
    split
    · dsimp only
      rw [ih, movePiece_stats]
    · rfl

theorem performHold_stats (game : Game) :
    (performHold game).1.stats = game.stats := by
  unfold performHold
  split
  · rfl
  · dsimp only
    split
    · rfl
    · split
      · rfl
      · show (spawnNextPiece game).1.stats = game.stats
        exact spawnNextPiece_stats game

/-- The stats produced by the lock's clear step evolve from the old stats. -/
theorem lockStatsEvents_evolves (game : Game) (p : Piece) :
    statsEvolves game.stats (lockStatsEvents game p).1 := by
  unfold lockStatsEvents
  split
  · exact handleLineClears_evolves _ _
  · exact statsEvolves_of_eq ⟨rfl, rfl⟩

theorem lockCurrentPiece_evolves (game : Game) :
    statsEvolves game.stats (lockCurrentPiece game).1.stats := by
  match hpc : game.currentPiece with
  | none =>
    unfold lockCurrentPiece
    rw [hpc]
    exact statsEvolves_refl _
  | some p =>
    rw [lockCurrentPiece_stats game p hpc]
    exact lockStatsEvents_evolves game p

theorem performHardDrop_evolves (game : Game) :
    statsEvolves game.stats (performHardDrop game).1.stats := by
  rcases hpc : game.currentPiece with _ | p
  · unfold performHardDrop
    rw [hpc]
    exact statsEvolves_refl _
  · unfold performHardDrop
    rw [hpc]
    dsimp only
    set hd := hardDropLoop (((TOTAL_HEIGHT : Int) + 1 - p.pos.y).toNat + 1) game with hhd
    have hs : hd.1.stats = game.stats := by
      rw [hhd]
      exact hardDropLoop_stats _ _
    have hmid : statsEvolves game.stats
        ({ hd.1 with stats :=
          { hd.1.stats with
            score := hd.1.stats.score + hd.2 * SCORE_HARD_DROP } } : Game).stats := by
      apply statsEvolves_of_eq
      constructor <;> (dsimp only; rw [hs])
    exact statsEvolves_trans hmid (lockCurrentPiece_evolves _)

theorem handleInput_evolves (game : Game) (a : InputAction) (pressed : Bool) :
    statsEvolves game.stats (handleInput game a pressed).1.stats := by
  unfold handleInput
  split
  · split
    · exact statsEvolves_refl _
    · exact statsEvolves_refl _
  · split
    · exact statsEvolves_refl _
    · split
      · exact statsEvolves_refl _
      · split
        · exact statsEvolves_of_eq ⟨by rw [movePiece_stats], by rw [movePiece_stats]⟩
        · split
          · exact statsEvolves_refl _
          · exact statsEvolves_refl _
        · exact statsEvolves_of_eq ⟨by rw [movePiece_stats], by rw [movePiece_stats]⟩
        · split
          · exact statsEvolves_refl _
          · exact statsEvolves_refl _
        · dsimp only
          split
          · exact statsEvolves_of_eq ⟨by rw [movePiece_stats], by rw [movePiece_stats]⟩
          · exact statsEvolves_of_eq ⟨by rw [movePiece_stats], by rw [movePiece_stats]⟩
        · exact performHardDrop_evolves game
        · exact statsEvolves_of_eq ⟨by rw [rotatePiece_stats], by rw [rotatePiece_stats]⟩
        · exact statsEvolves_of_eq ⟨by rw [rotatePiece_stats], by rw [rotatePiece_stats]⟩
        · split
          · exact statsEvolves_of_eq ⟨by rw [performHold_stats], by rw [performHold_stats]⟩
          · exact statsEvolves_refl _
        · exact statsEvolves_refl _

theorem update_evolves (game : Game) (dt : ℚ) :
    statsEvolves game.stats (update game dt).1.stats := by
  unfold update
  split
  · exact statsEvolves_refl _
  · dsimp only
    have hg2 : (updateGravity (updateDas game dt) dt).stats = game.stats := by
      rw [updateGravity_stats, updateDas_stats]
    split
    · exact statsEvolves_of_eq ⟨by rw [hg2], by rw [hg2]⟩
    · split
      · split
        · have := lockCurrentPiece_evolves
            { updateGravity (updateDas game dt) dt with
              lockTimer := (updateGravity (updateDas game dt) dt).lockTimer + dt }
          rw [show ({ updateGravity (updateDas game dt) dt with
              lockTimer := (updateGravity (updateDas game dt) dt).lockTimer + dt } :
                Game).stats = game.stats from hg2] at this
          exact this
        · exact statsEvolves_of_eq ⟨by rw [hg2], by rw [hg2]⟩
      · exact statsEvolves_of_eq ⟨by rw [hg2], by rw [hg2]⟩

theorem stepGame_evolves (game : Game) (op : GameOp) :
    statsEvolves game.stats (stepGame game op).stats := by
  cases op with
  | upd dt => exact update_evolves game dt
  | inp a pressed => exact handleInput_evolves game a pressed

theorem runGame_evolves (game : Game) (ops : List GameOp) :
    statsEvolves game.stats (runGame game ops).stats := by
  induction ops generalizing game with
  | nil => exact statsEvolves_refl _
  | cons op ops ih =>
    exact statsEvolves_trans (stepGame_evolves game op) (ih (stepGame game op))

/-- A fresh game's stats are the all-zero record. -/
theorem startGame_stats (seed : Nat) : (startGame seed).1.stats = initialStats := by
  unfold startGame
  rw [spawnNextPiece_stats]
  rfl

/-- C6: from a fresh `start`, after any sequence of controller operations
(frame updates and inputs — every stats-touching path runs through
`handleLineClears`, a score-only bump or a combo reset), the stats satisfy
`level = min(⌊lines / 10⌋, 29)` — hence in particular after every
line-clearing call, for any line total — and `level ≤ 29`; moreover from any
state, lines and level are monotonically non-decreasing under any further
operations. -/
theorem level_lines_invariants :
    (∀ (seed : Nat) (ops : List GameOp),
      (runGame (startGame seed).1 ops).stats.level =
        min ((runGame (startGame seed).1 ops).stats.lines / 10) 29 ∧
      (runGame (startGame seed).1 ops).stats.level ≤ 29) ∧
    (∀ (g : Game) (ops more : List GameOp),
      (runGame g ops).stats.lines ≤ (runGame g (ops ++ more)).stats.lines ∧
      (runGame g ops).stats.level ≤ (runGame g (ops ++ more)).stats.level) := by
  constructor
  · intro seed ops
    have h := (runGame_evolves (startGame seed).1 ops).2.2
    rw [startGame_stats] at h
    have hlaw := h rfl
    exact ⟨hlaw, by rw [hlaw]; exact Nat.min_le_right _ _⟩
  · intro g ops more
    have hsplit : runGame g (ops ++ more) = runGame (runGame g ops) more :=
      List.foldl_append _ _ _ _
    rw [hsplit]
    have h := runGame_evolves (runGame g ops) more
    exact ⟨h.1, h.2.1⟩

/- ------------------------------------------------------------------
   C7 — characterization of isValidPosition.
   ------------------------------------------------------------------ -/

/-- One shape cell objects exactly when it is filled and lands out of the
horizontal range, at or below the bottom, or on an occupied in-grid cell. -/
theorem cellOk_false_iff (g : Grid) (p : Pos) (shape : List (List Nat))
    (row col : Nat) :
    cellOk g p shape row col = false ↔
      (shape.getD row []).getD col 0 ≠ 0 ∧
        (p.x + col < 0 ∨ (BOARD_WIDTH : Int) ≤ p.x + col ∨
         (TOTAL_HEIGHT : Int) ≤ p.y + row ∨
         (0 ≤ p.y + row ∧ p.y + row < (TOTAL_HEIGHT : Int) ∧
           cellAtD g (p.y + row).toNat (p.x + col).toNat ≠ none)) := by
  unfold cellOk
  dsimp only
  split_ifs with h1 h2 h3 h4
  · exact iff_of_false (by simp) (fun hc => hc.1 h1)
  · refine iff_of_true rfl ⟨h1, ?_⟩
    rcases h2 with h | h
    · exact Or.inl h
    · exact Or.inr (Or.inl h)
  · exact iff_of_true rfl ⟨h1, Or.inr (Or.inr (Or.inr h3))⟩
  · exact iff_of_true rfl ⟨h1, Or.inr (Or.inr (Or.inl h4))⟩
  · refine iff_of_false (by simp) ?_
    rintro ⟨-, hv | hv | hv | hv⟩
    · exact h2 (Or.inl hv)
    · exact h2 (Or.inr hv)
    · exact h4 hv
    · exact h3 hv

/-- C7: `isValidPosition` returns `false` exactly when some filled cell of
the resolved shape has a column outside `[0, BOARD_WIDTH)`, or a row at or
beyond the bottom bound `TOTAL_HEIGHT`, or lands on an occupied in-grid
cell; a filled cell with a negative row and an in-range column over an
empty-or-hidden target never contributes, so rows above the grid top are
permitted by themselves. -/
theorem isValidPosition_false_iff (g : Grid) (t : TetrominoType) (p : Pos)
    (r : Fin 4) :
    isValidPosition g t p r = false ↔
      ∃ row col,
        ((getShape t r).getD row []).getD col 0 ≠ 0 ∧
        (p.x + col < 0 ∨ (BOARD_WIDTH : Int) ≤ p.x + col ∨
         (TOTAL_HEIGHT : Int) ≤ p.y + row ∨
         (0 ≤ p.y + row ∧ p.y + row < (TOTAL_HEIGHT : Int) ∧
           cellAtD g (p.y + row).toNat (p.x + col).toNat ≠ none)) := by
  unfold isValidPosition
  dsimp only
  rw [Bool.eq_false_iff, Ne, List.all_eq_true]
  constructor
  · intro h
    rcases not_forall.mp h with ⟨row, hrow⟩
    rcases not_forall.mp hrow with ⟨hrowmem, hfail⟩
    rw [List.all_eq_true] at hfail
    rcases not_forall.mp hfail with ⟨col, hcol⟩
    rcases not_forall.mp hcol with ⟨hcolmem, hcellfail⟩
    have hfalse : cellOk g p (getShape t r) row col = false :=
      Bool.not_eq_true _ ▸ Bool.eq_false_iff.mpr hcellfail
    exact ⟨row, col, (cellOk_false_iff g p (getShape t r) row col).mp hfalse⟩
  · rintro ⟨row, col, hcell⟩ hall
    have hrow_lt : row < (getShape t r).length := by
      by_contra hge
      rw [List.getD_eq_default _ _ (le_of_not_lt hge)] at hcell
      simp at hcell
    have hcol_lt : col < ((getShape t r).getD row []).length := by
      by_contra hge
      rw [List.getD_eq_default _ _ (le_of_not_lt hge)] at hcell
      simp at hcell
    have h1 := hall row (List.mem_range.mpr hrow_lt)
    rw [List.all_eq_true] at h1
    have h2 := h1 col (List.mem_range.mpr hcol_lt)
    rw [(cellOk_false_iff g p (getShape t r) row col).mpr hcell] at h2
    cases h2

/- ------------------------------------------------------------------
   C8 — wall-kick search applies the first valid offset.
   ------------------------------------------------------------------ -/

/-- The kick loop applies exactly the first offset (in list order) whose
target position is valid — `List.find?` semantics — and changes nothing when
none is. -/
theorem tryKicks_find (game : Game) (p : Piece) (nr : Fin 4) (ks : List Pos) :
    tryKicks game p nr ks =
      match ks.find? (fun k =>
          isValidPosition game.board p.type ⟨p.pos.x + k.x, p.pos.y + k.y⟩ nr) with
      | some k =>
        ({ game with
            currentPiece := some
              { p with pos := ⟨p.pos.x + k.x, p.pos.y + k.y⟩, rotation := nr },
            lastWasRotation := true,
            lockTimer := if p.locked then 0 else game.lockTimer }, true)
      | none => (game, false) := by
  induction ks with
  | nil => rfl
  | cons k ks ih =>
    unfold tryKicks
    dsimp only
    by_cases h :
        isValidPosition game.board p.type ⟨p.pos.x + k.x, p.pos.y + k.y⟩ nr = true
    · rw [if_pos h, show List.find? (fun k =>
          isValidPosition game.board p.type ⟨p.pos.x + k.x, p.pos.y + k.y⟩ nr) (k :: ks) =
          some k from List.find?_cons_of_pos _ h]
    · rw [if_neg h, show List.find? (fun k =>
          isValidPosition game.board p.type ⟨p.pos.x + k.x, p.pos.y + k.y⟩ nr) (k :: ks) =
          List.find? (fun k =>
            isValidPosition game.board p.type ⟨p.pos.x + k.x, p.pos.y + k.y⟩ nr) ks from
          List.find?_cons_of_neg _ (by simpa using h), ih]

/-- C8: in a playing state with an active piece, a rotate input targets the
cyclic successor (CW) or predecessor (CCW) rotation; it applies the in-place
rotation when valid, otherwise the first wall-kick offset of the table for
that (from, to) pair yielding a valid position (later offsets are not
reached once one succeeds, by `List.find?` semantics), and otherwise leaves
position and rotation unchanged. -/
theorem rotate_applies_first_valid_kick (game : Game) (p : Piece) (cw : Bool)
    (hs : game.state = GameState.PLAYING) (hp : game.currentPiece = some p) :
    ((handleInput game (if cw then .ROTATE_CW else .ROTATE_CCW) true).1.currentPiece.map
        fun q => (q.pos, q.rotation)) =
      some (
        let nr := if cw then getNextRotationCW p.rotation else getNextRotationCCW p.rotation
        if isValidPosition game.board p.type p.pos nr then (p.pos, nr)
        else
          match (getWallKickOffsets p.type p.rotation nr).find? (fun k =>
              isValidPosition game.board p.type ⟨p.pos.x + k.x, p.pos.y + k.y⟩ nr) with
          | some k => (⟨p.pos.x + k.x, p.pos.y + k.y⟩, nr)
          | none => (p.pos, p.rotation)) := by
  have hrot : ∀ clockwise : Bool,
      ((rotatePiece game clockwise).1.currentPiece.map fun q => (q.pos, q.rotation)) =
        some (
          let nr := if clockwise then getNextRotationCW p.rotation
            else getNextRotationCCW p.rotation
          if isValidPosition game.board p.type p.pos nr then (p.pos, nr)
          else
            match (getWallKickOffsets p.type p.rotation nr).find? (fun k =>
                isValidPosition game.board p.type ⟨p.pos.x + k.x, p.pos.y + k.y⟩ nr) with
            | some k => (⟨p.pos.x + k.x, p.pos.y + k.y⟩, nr)
            | none => (p.pos, p.rotation)) := by
    intro clockwise
    unfold rotatePiece
    rw [hp]
    dsimp only
    by_cases hv : isValidPosition game.board p.type p.pos
        (if clockwise then getNextRotationCW p.rotation
          else getNextRotationCCW p.rotation) = true
    · rw [if_pos hv, if_pos hv]
      rfl
    · rw [if_neg hv, if_neg hv, tryKicks_find]
      split
      · rfl
      · dsimp only
        rw [hp]
        rfl
  cases cw with
  | true =>
    unfold handleInput
    rw [hp]
    simp only [hs]
    exact hrot true
  | false =>
    unfold handleInput
    rw [hp]
    simp only [hs]
    exact hrot false

/-- C8 witness: a T piece near the bottom of an empty board; the in-place
CW rotation and the first two kicks stick out below the floor, the third
kick `(0, -2)` is the first valid one and is the one applied. -/
theorem rotate_applies_first_valid_kick_witness :
    (⟨createEmptyGrid, initBag 1, .PLAYING, initialStats,
        some ⟨.T, ⟨7, 20⟩, 0, false, 0⟩, none, true, 0, 0, 0, none, false⟩ : Game).state
        = GameState.PLAYING ∧
    (⟨createEmptyGrid, initBag 1, .PLAYING, initialStats,
        some ⟨.T, ⟨7, 20⟩, 0, false, 0⟩, none, true, 0, 0, 0, none, false⟩ : Game).currentPiece
        = some ⟨.T, ⟨7, 20⟩, 0, false, 0⟩ ∧
    ((handleInput
        (⟨createEmptyGrid, initBag 1, .PLAYING, initialStats,
          some ⟨.T, ⟨7, 20⟩, 0, false, 0⟩, none, true, 0, 0, 0, none, false⟩ : Game)
        (if true then .ROTATE_CW else .ROTATE_CCW) true).1.currentPiece.map
          fun q => (q.pos, q.rotation)) =
      some (
        let nr := if true then getNextRotationCW (0 : Fin 4)
          else getNextRotationCCW (0 : Fin 4)
        if isValidPosition createEmptyGrid .T ⟨7, 20⟩ nr then ((⟨7, 20⟩ : Pos), nr)
        else
          match (getWallKickOffsets .T 0 nr).find? (fun k =>
              isValidPosition createEmptyGrid .T ⟨7 + k.x, 20 + k.y⟩ nr) with
          | some k => ((⟨7 + k.x, 20 + k.y⟩ : Pos), nr)
          | none => ((⟨7, 20⟩ : Pos), (0 : Fin 4))) ∧
    ((handleInput
        (⟨createEmptyGrid, initBag 1, .PLAYING, initialStats,
          some ⟨.T, ⟨7, 20⟩, 0, false, 0⟩, none, true, 0, 0, 0, none, false⟩ : Game)
        .ROTATE_CW true).1.currentPiece.map fun q => (q.pos, q.rotation)) =
      some ((⟨7, 18⟩ : Pos), (1 : Fin 4)) :=
  ⟨rfl, rfl,
    rotate_applies_first_valid_kick
      (⟨createEmptyGrid, initBag 1, .PLAYING, initialStats,
        some ⟨.T, ⟨7, 20⟩, 0, false, 0⟩, none, true, 0, 0, 0, none, false⟩ : Game)
      ⟨.T, ⟨7, 20⟩, 0, false, 0⟩ true rfl rfl, by decide⟩

/- ------------------------------------------------------------------
   C10 — the soft-lock flag is never cleared; downward moves keep the
   lock timer.
   ------------------------------------------------------------------ -/

/-- `movePiece` never touches the `locked` flag of the active piece
(successful or not, horizontal or vertical). -/
theorem movePiece_locked (game : Game) (dx dy : Int) :
    (movePiece game dx dy).1.currentPiece.map (fun q => q.locked) =
      game.currentPiece.map (fun q => q.locked) := by
  rcases hpc : game.currentPiece with _ | p <;>
    (unfold movePiece; rw [hpc]; dsimp only)
  · rw [hpc]
  · repeat' split
    all_goals first | rfl | rw [hpc]

/-- A successful kick keeps the `locked` flag of the rotated piece. -/
theorem tryKicks_locked (game : Game) (p : Piece) (nr : Fin 4)
    (hp : game.currentPiece = some p) (ks : List Pos) :
    (tryKicks game p nr ks).1.currentPiece.map (fun q => q.locked) =
      some p.locked := by
  induction ks with
  | nil =>
    show game.currentPiece.map _ = _
    rw [hp]
    rfl
  | cons k ks ih =>
    unfold tryKicks
    dsimp only
    split
    · rfl
    · exact ih

/-- `rotatePiece` never touches the `locked` flag (with or without kicks,
successful or not). -/
theorem rotatePiece_locked (game : Game) (cw : Bool) :
    (rotatePiece game cw).1.currentPiece.map (fun q => q.locked) =
      game.currentPiece.map (fun q => q.locked) := by
  rcases hpc : game.currentPiece with _ | p
  · unfold rotatePiece
    rw [hpc]
    dsimp only
    rw [hpc]
  · unfold rotatePiece
    rw [hpc]
    dsimp only
    split <;> split
    all_goals first | rfl | (rw [tryKicks_locked game p _ hpc]; rfl)

/-- A purely vertical move (`dx = 0`) never resets the lock timer, even
when it succeeds on a soft-locked piece. -/
theorem movePiece_down_lockTimer (game : Game) :
    (movePiece game 0 1).1.lockTimer = game.lockTimer := by
  rcases hpc : game.currentPiece with _ | p
  · unfold movePiece
    rw [hpc]
  · unfold movePiece
    rw [hpc]
    dsimp only
    split
    · show (if (0 : Int) ≠ 0 ∧ p.locked = true then 0 else game.lockTimer) = _
      rw [if_neg]
      simp
    · rfl

/-- The gravity loop never clears the flag of a soft-locked piece (a failed
descent sets it, a successful one leaves it). -/
theorem gravitySteps_locked (n : Nat) (game : Game) (p : Piece)
    (hp : game.currentPiece = some p) (hl : p.locked = true) :
    ∃ q, (gravitySteps n game).currentPiece = some q ∧ q.locked = true := by
  induction n generalizing game p with
  | zero => exact ⟨p, hp, hl⟩
  | succ n ih =>
    unfold gravitySteps
    dsimp only
    have hmv := movePiece_locked game 0 1
    rw [hp, Option.map_some'] at hmv
    rcases Option.map_eq_some'.mp hmv with ⟨q, hq, hql⟩
    have hql' : q.locked = true := by
      have hb : q.locked = p.locked := hql
      rw [hb, hl]
    split
    · exact ih _ q hq hql'
    · refine ih _ { q with locked := true } ?_ rfl
      show ((movePiece game 0 1).1.currentPiece.map fun r => { r with locked := true })
          = _
      rw [hq]
      rfl

/-- The gravity loop performs only vertical moves, so it keeps the lock
timer. -/
theorem gravitySteps_lockTimer (n : Nat) (game : Game) :
    (gravitySteps n game).lockTimer = game.lockTimer := by
  induction n generalizing game with
  | zero => rfl
  | succ n ih =>
    unfold gravitySteps
    dsimp only
    rw [ih]
    split
    · exact movePiece_down_lockTimer game
    · show (movePiece game 0 1).1.lockTimer = game.lockTimer
      exact movePiece_down_lockTimer game

/-- With no DAS direction armed, the DAS block is the identity. -/
theorem updateDas_none (game : Game) (dt : ℚ)
    (h : game.dasDirection = none) : updateDas game dt = game := by
  unfold updateDas
  rw [h]

/-- The piece-lock event is always emitted by a lock with an active piece. -/
theorem lockCurrentPiece_emits_piece_lock (game : Game) (p : Piece)
    (hp : game.currentPiece = some p) :
    GameEvent.piece_lock ∈ (lockCurrentPiece game).2 := by
  have hbase : GameEvent.piece_lock ∈ lockEvents game p := by
    unfold lockEvents
    simp
  unfold lockCurrentPiece
  rw [hp]
  simp only [isGameOver, Bool.false_eq_true, if_false]
  split
  · exact hbase
  · dsimp only
    exact List.mem_append.mpr (Or.inl hbase)

/-- C10: the soft-lock flag is write-once for the life of a piece, and lock
timing ignores vertical motion: (1) `movePiece` never changes the flag (so
no successful horizontal or downward move clears it); (2) `rotatePiece`
never changes it (in-place or wall kick); (3) a downward move never resets
the lock timer; (4) in a frame update of a playing game whose soft-locked
piece has no DAS armed, the piece locks (a piece-lock event is emitted) as
soon as the accumulated lock timer reaches `LOCK_DELAY` — with no condition
that the piece be blocked below, so it locks even if gravity in that same
frame moved it further down — and otherwise the piece survives, still
soft-locked, with the timer advanced, never reset, by `deltaTime`. -/
theorem softLock_flag_never_cleared :
    (∀ (game : Game) (dx dy : Int),
      (movePiece game dx dy).1.currentPiece.map (fun q => q.locked) =
        game.currentPiece.map (fun q => q.locked)) ∧
    (∀ (game : Game) (cw : Bool),
      (rotatePiece game cw).1.currentPiece.map (fun q => q.locked) =
        game.currentPiece.map (fun q => q.locked)) ∧
    (∀ game : Game, (movePiece game 0 1).1.lockTimer = game.lockTimer) ∧
    (∀ (game : Game) (p : Piece) (dt : ℚ),
      game.state = GameState.PLAYING → game.currentPiece = some p →
      p.locked = true → game.dasDirection = none →
      (LOCK_DELAY ≤ game.lockTimer + dt →
        GameEvent.piece_lock ∈ (update game dt).2) ∧
      (¬ LOCK_DELAY ≤ game.lockTimer + dt →
        ∃ q, (update game dt).1.currentPiece = some q ∧ q.locked = true ∧
          (update game dt).1.lockTimer = game.lockTimer + dt)) := by
  refine ⟨movePiece_locked, rotatePiece_locked, movePiece_down_lockTimer, ?_⟩
  intro game p dt hs hp hl hdas
  have hguard : ¬ (game.state ≠ GameState.PLAYING ∨ game.currentPiece = none) := by
    rw [hs, hp]
    simp
  have hg2p : ∃ q, (updateGravity (updateDas game dt) dt).currentPiece = some q ∧
      q.locked = true := by
    rw [updateDas_none game dt hdas]
    unfold updateGravity
    dsimp only
    exact gravitySteps_locked _ _ p hp hl
  have hg2t : (updateGravity (updateDas game dt) dt).lockTimer = game.lockTimer := by
    rw [updateDas_none game dt hdas]
    unfold updateGravity
    dsimp only
    rw [gravitySteps_lockTimer]
  rcases hg2p with ⟨q, hq, hql⟩
  constructor
  · intro hdelay
    unfold update
    rw [if_neg hguard]
    (try dsimp only)
    rw [hq]
    (try dsimp only)
    rw [if_pos hql]
    rw [if_pos (show LOCK_DELAY ≤ (updateGravity (updateDas game dt) dt).lockTimer + dt by
      rw [hg2t]; exact hdelay)]
    exact lockCurrentPiece_emits_piece_lock _ q rfl
  · intro hdelay
    unfold update
    rw [if_neg hguard]
    (try dsimp only)
    rw [hq]
    (try dsimp only)
    rw [if_pos hql]
    rw [if_neg (show ¬ LOCK_DELAY ≤ (updateGravity (updateDas game dt) dt).lockTimer + dt by
      rw [hg2t]; exact hdelay)]
    refine ⟨q, rfl, hql, ?_⟩
    show (updateGravity (updateDas game dt) dt).lockTimer + dt = game.lockTimer + dt
    rw [hg2t]

/-- C10 witness: an empty board, a soft-locked O piece, no DAS armed and a
500 ms frame: the lock delay expires and the lock event fires. -/
theorem softLock_flag_never_cleared_witness :
    (⟨createEmptyGrid, initBag 1, .PLAYING, initialStats,
        some ⟨.O, ⟨4, 18⟩, 0, true, 0⟩, none, true, 0, 0, 0, none, false⟩ : Game).state
        = GameState.PLAYING ∧
    (⟨createEmptyGrid, initBag 1, .PLAYING, initialStats,
        some ⟨.O, ⟨4, 18⟩, 0, true, 0⟩, none, true, 0, 0, 0, none, false⟩ : Game).currentPiece
        = some ⟨.O, ⟨4, 18⟩, 0, true, 0⟩ ∧
    (Piece.mk .O ⟨4, 18⟩ 0 true 0).locked = true ∧
    LOCK_DELAY ≤
      (⟨createEmptyGrid, initBag 1, .PLAYING, initialStats,
        some ⟨.O, ⟨4, 18⟩, 0, true, 0⟩, none, true, 0, 0, 0, none, false⟩ : Game).lockTimer
        + 500 ∧
    GameEvent.piece_lock ∈
      (update
        (⟨createEmptyGrid, initBag 1, .PLAYING, initialStats,
          some ⟨.O, ⟨4, 18⟩, 0, true, 0⟩, none, true, 0, 0, 0, none, false⟩ : Game)
        500).2 :=
  ⟨rfl, rfl, rfl, by norm_num [LOCK_DELAY],
    (softLock_flag_never_cleared.2.2.2
      (⟨createEmptyGrid, initBag 1, .PLAYING, initialStats,
        some ⟨.O, ⟨4, 18⟩, 0, true, 0⟩, none, true, 0, 0, 0, none, false⟩ : Game)
      ⟨.O, ⟨4, 18⟩, 0, true, 0⟩ 500 rfl rfl rfl rfl).1
      (by norm_num [LOCK_DELAY])⟩

/- ------------------------------------------------------------------
   C5 — every refill-aligned block of 7 draws is a permutation of the
   seven types.
   ------------------------------------------------------------------ -/

/-- Moving the `m`-th element to the front while overwriting its slot is a
permutation of consing the new value. -/
theorem perm_cons_set {α : Type} (t : List α) (m : Nat) (h : m < t.length) (a : α) :
    List.Perm (t[m] :: t.set m a) (a :: t) := by
  induction t generalizing m with
  | nil => cases h
  | cons b t ih =>
    cases m with
    | zero => exact List.Perm.swap a b t
    | succ m =>
      have hm : m < t.length := Nat.lt_of_succ_lt_succ h
      have h1 : List.Perm (t[m] :: b :: t.set m a)
          (b :: t[m] :: t.set m a) := List.Perm.swap _ _ _
      have h2 : List.Perm (b :: t[m] :: t.set m a) (b :: a :: t) :=
        (ih m hm).cons b
      have h3 : List.Perm (b :: a :: t) (a :: b :: t) := List.Perm.swap _ _ _
      exact h1.trans (h2.trans h3)

/-- Exchanging two in-bounds elements permutes the list. -/
theorem perm_set_set {α : Type} (l : List α) (i j : Nat)
    (hi : i < l.length) (hj : j < l.length) :
    List.Perm ((l.set i l[j]).set j l[i]) l := by
  induction l generalizing i j with
  | nil => cases hi
  | cons a t ih =>
    cases i with
    | zero =>
      cases j with
      | zero => simp
      | succ m =>
        have hm : m < t.length := Nat.lt_of_succ_lt_succ hj
        exact perm_cons_set t m hm a
    | succ n =>
      cases j with
      | zero =>
        have hn : n < t.length := Nat.lt_of_succ_lt_succ hi
        exact perm_cons_set t n hn a
      | succ m =>
        have hn : n < t.length := Nat.lt_of_succ_lt_succ hi
        have hm : m < t.length := Nat.lt_of_succ_lt_succ hj
        exact (ih n m hn hm).cons a

/-- The destructuring swap permutes the bag when both indices are in
bounds. -/
theorem swapList_perm (l : List TetrominoType) (i j : Nat)
    (hi : i < l.length) (hj : j < l.length) :
    List.Perm (swapList l i j) l := by
  unfold swapList
  rw [List.getD_eq_getElem l .I hj, List.getD_eq_getElem l .I hi]
  exact perm_set_set l i j hi hj

/-- Each Fisher-Yates swap target `⌊random() * (i + 1)⌋` is in range: the
updated 31-bit seed `s` satisfies `s < 2^31`, so `s * (i + 2) / 2^31 < i + 2`. -/
theorem fisherYates_index_lt (seed i : Nat) :
    lcgNext seed * (i + 2) / 2147483648 < i + 2 := by
  have hs : lcgNext seed < 2147483648 := Nat.mod_lt _ (by norm_num)
  rw [Nat.div_lt_iff_lt_mul (show (0 : Nat) < 2147483648 by norm_num)]
  calc lcgNext seed * (i + 2) < 2147483648 * (i + 2) :=
        Nat.mul_lt_mul_of_lt_of_le hs (le_refl _) (by omega)
    _ = (i + 2) * 2147483648 := Nat.mul_comm _ _

/-- The whole Fisher-Yates pass permutes the bag. -/
theorem fisherYates_perm (v : Nat) (bag : List TetrominoType) (seed : Nat)
    (hv : v < bag.length) :
    List.Perm (fisherYates v (bag, seed)).1 bag := by
  induction v generalizing bag seed with
  | zero => exact List.Perm.refl bag
  | succ i ih =>
    unfold fisherYates
    dsimp only
    have hj : lcgNext seed * (i + 2) / 2147483648 < bag.length :=
      lt_of_lt_of_le (fisherYates_index_lt seed i) hv
    have hswap := swapList_perm bag (i + 1) (lcgNext seed * (i + 2) / 2147483648) hv hj
    have hlen : (swapList bag (i + 1) (lcgNext seed * (i + 2) / 2147483648)).length
        = bag.length := hswap.length_eq
    have hi : i < (swapList bag (i + 1) (lcgNext seed * (i + 2) / 2147483648)).length := by
      rw [hlen]
      omega
    exact (ih _ _ hi).trans hswap

/-- Every generated bag is a permutation of the seven types. -/
theorem fillBag_perm (seed : Nat) :
    List.Perm (fillBag seed).1 allTypes :=
  fisherYates_perm _ allTypes seed (by decide)

/-- Every generated bag has exactly seven pieces. -/
theorem fillBag_length (seed : Nat) : (fillBag seed).1.length = 7 :=
  (fillBag_perm seed).length_eq

/-- Draining a non-empty current bag: `currentBag.length` draws output
exactly `currentBag`, leaving the rest of the state untouched. -/
theorem bagDrawN_drain (cb nb : List TetrominoType) (s : Nat) :
    bagDrawN cb.length ⟨cb, nb, s⟩ = (cb, ⟨[], nb, s⟩) := by
  induction cb with
  | nil => rfl
  | cons c cb ih =>
    show bagDrawN (cb.length + 1) ⟨c :: cb, nb, s⟩ = _
    unfold bagDrawN
    dsimp only
    rw [show bagNext ⟨c :: cb, nb, s⟩ = (c, ⟨cb, nb, s⟩) from rfl, ih]

/-- Splitting a draw run. -/
theorem bagDrawN_add (m n : Nat) (b : BagState) :
    bagDrawN (m + n) b =
      ((bagDrawN m b).1 ++ (bagDrawN n (bagDrawN m b).2).1,
        (bagDrawN n (bagDrawN m b).2).2) := by
  induction m generalizing b with
  | zero => simp [bagDrawN]
  | succ m ih =>
    rw [show m + 1 + n = (m + n) + 1 from by omega]
    show (let tb := bagNext b;
      let rest := bagDrawN (m + n) tb.2; (tb.1 :: rest.1, rest.2)) = _
    dsimp only
    rw [ih (bagNext b).2]
    rfl

/-- Drawing a full bag out of an exhausted current bag promotes `nextBag`
and refills from the current seed. -/
theorem bagDrawN_refill (nb : List TetrominoType) (s : Nat) (hnb : nb ≠ []) :
    bagDrawN nb.length ⟨[], nb, s⟩ =
      (nb, ⟨[], (fillBag s).1, (fillBag s).2⟩) := by
  cases nb with
  | nil => cases hnb rfl
  | cons c cb =>
    show bagDrawN (cb.length + 1) ⟨[], c :: cb, s⟩ = _
    unfold bagDrawN
    dsimp only
    rw [show bagNext ⟨[], c :: cb, s⟩
        = (c, ⟨cb, (fillBag s).1, (fillBag s).2⟩) from rfl]
    rw [bagDrawN_drain]

/-- The bag produced by the `k`-th refill, with the seed that follows it
(refill 0 and 1 happen in the constructor). -/
def bagAt (seed : Nat) : Nat → List TetrominoType × Nat
  | 0 => fillBag seed
  | k + 1 => fillBag (bagAt seed k).2

/-- The concatenation of refill bags 0 through k. -/
def concatBags (seed : Nat) : Nat → List TetrominoType
  | 0 => (bagAt seed 0).1
  | k + 1 => concatBags seed k ++ (bagAt seed (k + 1)).1

theorem bagAt_length (seed k : Nat) : (bagAt seed k).1.length = 7 := by
  cases k with
  | zero => exact fillBag_length seed
  | succ k => exact fillBag_length _

theorem bagAt_perm (seed k : Nat) : List.Perm (bagAt seed k).1 allTypes := by
  cases k with
  | zero => exact fillBag_perm seed
  | succ k => exact fillBag_perm _

theorem concatBags_length (seed k : Nat) :
    (concatBags seed k).length = 7 * (k + 1) := by
  induction k with
  | zero => exact bagAt_length seed 0
  | succ k ih =>
    show (concatBags seed k ++ (bagAt seed (k + 1)).1).length = _
    rw [List.length_append, ih, bagAt_length]
    ring

/-- The draw stream is exactly the concatenation of the refill bags. -/
theorem bagDrawN_structure (seed k : Nat) :
    bagDrawN (7 * (k + 1)) (initBag seed) =
      (concatBags seed k,
        ⟨[], (bagAt seed (k + 1)).1, (bagAt seed (k + 1)).2⟩) := by
  induction k with
  | zero =>
    have h0 : initBag seed =
        ⟨(bagAt seed 0).1, (bagAt seed 1).1, (bagAt seed 1).2⟩ := rfl
    rw [h0, show 7 * (0 + 1) = ((bagAt seed 0).1).length from (bagAt_length seed 0).symm ▸ rfl]
    rw [bagDrawN_drain]
    rfl
  | succ k ih =>
    have hsplit : 7 * (k + 1 + 1) = 7 * (k + 1) + 7 := by ring
    rw [hsplit, bagDrawN_add, ih]
    dsimp only
    have h7 : (7 : Nat) = ((bagAt seed (k + 1)).1).length := (bagAt_length seed (k + 1)).symm
    rw [h7, bagDrawN_refill _ _ (by
      have := bagAt_length seed (k + 1)
      intro hcon
      rw [hcon] at this
      cases this)]
    rfl

theorem bagDrawN_length (n : Nat) (b : BagState) :
    (bagDrawN n b).1.length = n := by
  induction n generalizing b with
  | zero => rfl
  | succ n ih =>
    unfold bagDrawN
    dsimp only
    rw [List.length_cons, ih]

/-- C5: for every seed, every block of 7 consecutive draws aligned to a
refill boundary (draws `7k+1 … 7k+7`) contains each of the seven piece
types exactly once. -/
theorem seven_bag_aligned_blocks (seed k : Nat) :
    (bagDrawN (7 * k + 7) (initBag seed)).1.length = 7 * k + 7 ∧
    ∀ t : TetrominoType,
      (((bagDrawN (7 * k + 7) (initBag seed)).1).drop (7 * k)).count t = 1 := by
  refine ⟨bagDrawN_length _ _, ?_⟩
  intro t
  have hstruct := bagDrawN_structure seed k
  have h1 : (bagDrawN (7 * k + 7) (initBag seed)).1 = concatBags seed k := by
    rw [show 7 * k + 7 = 7 * (k + 1) from by ring, hstruct]
  rw [h1]
  have hdrop : (concatBags seed k).drop (7 * k) = (bagAt seed k).1 := by
    cases k with
    | zero => rfl
    | succ k =>
      show (concatBags seed k ++ (bagAt seed (k + 1)).1).drop (7 * (k + 1)) = _
      rw [show 7 * (k + 1) = (concatBags seed k).length from
        (concatBags_length seed k).symm]
      exact List.drop_left _ _
  rw [hdrop, (bagAt_perm seed k).count_eq]
  cases t <;> rfl

/- ------------------------------------------------------------------
   C9 — board statistics.
   ------------------------------------------------------------------ -/

/-- Column height as the code computes it, in closed form: `TOTAL_HEIGHT`
minus the row index of the first occupied cell — the distance from the grid
BOTTOM up to and including the first occupied cell — and 0 for an empty
column. -/
def specColHeight (cells : List Cell) : Nat :=
  match cells.findIdx? (fun c => c ≠ none) with
  | none => 0
  | some r => TOTAL_HEIGHT - r

/-- Holes of one column: one per empty cell strictly below the column's
first occupied cell (disjoint empty regions all count). -/
def specColHoles (cells : List Cell) : Nat :=
  match cells.findIdx? (fun c => c ≠ none) with
  | none => 0
  | some r => (cells.drop (r + 1)).countP fun c => c = none

/-- Modelled from the claim's words, for refutation only: "height =
distance from the grid top to the first occupied cell (0 if the column is
empty)" — i.e. the row index of the first occupied cell. -/
def specLiteralColHeight (cells : List Cell) : Nat :=
  match cells.findIdx? (fun c => c ≠ none) with
  | none => 0
  | some r => r

/-- A single block in the bottom-left corner of an otherwise empty grid. -/
def statsBugGrid : Grid :=
  createEmptyGrid.set 21 ((List.replicate BOARD_WIDTH (none : Cell)).set 0 (some .I))

/-- C9 counterexample: with one block on the bottom row, the code reports
aggregate height 1 (and bumpiness 1) — the column height is measured from
the grid bottom, `TOTAL_HEIGHT - row` — while the claim's "distance from
the grid top to the first occupied cell" reading would give 21 (and
bumpiness 21). -/
theorem boardStats_height_not_from_top :
    (getBoardStats statsBugGrid).height = 1 ∧
    (getBoardStats statsBugGrid).bumpiness = 1 ∧
    ((List.range BOARD_WIDTH).map fun col =>
      specLiteralColHeight (columnCells statsBugGrid col)).foldl max 0 = 21 ∧
    (getBoardStats statsBugGrid).height ≠
      ((List.range BOARD_WIDTH).map fun col =>
        specLiteralColHeight (columnCells statsBugGrid col)).foldl max 0 := by
  decide

/-- After the first occupied cell, the scan keeps the height and counts
every empty cell. -/
theorem colLoop_found (cells : List Cell) (row h holes : Nat) :
    colLoop cells row true h holes =
      (h, holes + cells.countP fun c => c = none) := by
  induction cells generalizing row holes with
  | nil => rfl
  | cons c rest ih =>
    unfold colLoop
    rw [List.countP_cons]
    split
    · rw [ih]
      simp_all
    · rw [ih]
      simp_all
      omega

/-- The full scan of one column, characterized by the first occupied index. -/
theorem colLoop_spec (cells : List Cell) (row holes0 : Nat) :
    colLoop cells row false 0 holes0 =
      (match cells.findIdx? (fun c => c ≠ none) with
       | none => (0, holes0)
       | some r =>
         (TOTAL_HEIGHT - (row + r),
           holes0 + ((cells.drop (r + 1)).countP fun c => c = none))) := by
  induction cells generalizing row with
  | nil => rfl
  | cons c rest ih =>
    unfold colLoop
    by_cases hc : c ≠ none
    · rw [if_pos hc]
      have hf : (c :: rest).findIdx? (fun c => c ≠ none) = some 0 := by
        simp [List.findIdx?_cons, hc]
      rw [hf]
      simp only [Nat.add_zero, List.drop_succ_cons, List.drop_zero]
      exact colLoop_found _ _ _ _
    · rw [if_neg hc, ih]
      have hf : (c :: rest).findIdx? (fun c => c ≠ none)
          = (rest.findIdx? (fun c => c ≠ none)).map (· + 1) := by
        simp [List.findIdx?_cons, hc]
      rw [hf]
      cases hidx : rest.findIdx? (fun c => c ≠ none) with
      | none => rfl
      | some r =>
        simp only [Option.map_some']
        rw [show row + 1 + r = row + (r + 1) from by omega]
        rfl

/-- The per-column stats equal their closed forms. -/
theorem columnStats_spec (g : Grid) (col : Nat) :
    columnStats g col =
      (specColHeight (columnCells g col), specColHoles (columnCells g col)) := by
  unfold columnStats specColHeight specColHoles
  rw [colLoop_spec]
  cases hidx : (columnCells g col).findIdx? (fun c => c ≠ none) with
  | none => rfl
  | some r =>
    simp

/-- Reading an in-range entry of a tabulated list. -/
theorem getD_map_range (f : Nat → Nat) (n i : Nat) (h : i < n) :
    (((List.range n).map f).getD i 0) = f i := by
  have hlen : i < ((List.range n).map f).length := by simpa using h
  rw [List.getD_eq_getElem _ _ hlen]
  simp

/-- C9 (amended): `getBoardStats` returns per-column heights measured from
the grid bottom — `TOTAL_HEIGHT` minus the first occupied row index, 0 for
an empty column — with holes counted per empty cell strictly below the
column's first occupied cell (non-contiguous regions included), bumpiness
the sum of absolute height differences of adjacent columns, and aggregate
height the maximum of the per-column heights. -/
theorem getBoardStats_closed_form (g : Grid) :
    getBoardStats g =
      ⟨((List.range BOARD_WIDTH).map fun col =>
          specColHeight (columnCells g col)).foldl max 0,
        ((List.range BOARD_WIDTH).map fun col =>
          specColHoles (columnCells g col)).sum,
        ((List.range (BOARD_WIDTH - 1)).map fun i =>
          ((specColHeight (columnCells g i) : Int) -
            (specColHeight (columnCells g (i + 1)) : Int)).natAbs).sum⟩ := by
  unfold getBoardStats
  dsimp only
  have hheights : ((List.range BOARD_WIDTH).map fun col => (columnStats g col).1) =
      (List.range BOARD_WIDTH).map fun col => specColHeight (columnCells g col) :=
    List.map_congr_left fun col _ => by rw [columnStats_spec]
  have hholes : ((List.range BOARD_WIDTH).map fun col => (columnStats g col).2) =
      (List.range BOARD_WIDTH).map fun col => specColHoles (columnCells g col) :=
    List.map_congr_left fun col _ => by rw [columnStats_spec]
  rw [hheights, hholes]
  have hbump : ((List.range (BOARD_WIDTH - 1)).map fun i =>
      ((((List.range BOARD_WIDTH).map fun col =>
          specColHeight (columnCells g col)).getD i 0 : Int) -
        (((List.range BOARD_WIDTH).map fun col =>
          specColHeight (columnCells g col)).getD (i + 1) 0 : Int)).natAbs) =
      (List.range (BOARD_WIDTH - 1)).map fun i =>
        ((specColHeight (columnCells g i) : Int) -
          (specColHeight (columnCells g (i + 1)) : Int)).natAbs := by
    refine List.map_congr_left fun i hi => ?_
    have hi' : i < BOARD_WIDTH - 1 := List.mem_range.mp hi
    rw [getD_map_range _ _ _ (by omega), getD_map_range _ _ _ (by omega)]
  rw [hbump]

end Tetris
